import Mathlib

/-!
Shallow embedding of the ggshu data-mapping layer (aes.py, geoms.py, ggdata.py):
aesthetic specs, geometry objects, the PlotData composition engine backed by a
small model of pandas tables (grouping, dtypes, column extraction), and the
JSON serialization step with its missing-value sentinels.

Python cell values are modelled by `Cell` (integers, floats, the float NaN,
None, strings and lists); a pandas Series is a list of cells, a DataFrame a
list of named columns.  Numeric floats are modelled by `Rat`.  Fallible Python
code (raising AssertionError / TypeError / KeyError / IndexError) is modelled
with `Except PyErr`.
-/

/-- Python exceptions raised by the modelled code paths. -/
inductive PyErr where
  | typeError (msg : String)
  | keyError (msg : String)
  | assertionError (msg : String)
  | indexError (msg : String)
  deriving DecidableEq, Repr

/-- A Python value stored in a pandas cell: int, float, float NaN, None,
str, or list. -/
inductive Cell where
  | int (n : Int)
  | real (q : Rat)
  | nan
  | none
  | str (s : String)
  | list (xs : List Cell)
  deriving Repr

/-- Python `==` on cells (deep structural equality; NaN == NaN is modelled as
true since the code never compares NaN cells with `==`). -/
def Cell.beq : Cell → Cell → Bool
  | .int a, .int b => a == b
  | .real a, .real b => a == b
  | .nan, .nan => true
  | .none, .none => true
  | .str a, .str b => a == b
  | .list xs, .list ys => beqList xs ys
  | _, _ => false
where beqList : List Cell → List Cell → Bool
  | [], [] => true
  | a :: as, b :: bs => Cell.beq a b && beqList as bs
  | _, _ => false

instance : BEq Cell := ⟨Cell.beq⟩

/-- isinstance(x, int) -/
def Cell.isInt : Cell → Bool
  | .int _ => true
  | _ => false

/-- isinstance(x, float); note float('nan') is a float -/
def Cell.isFloat : Cell → Bool
  | .real _ => true
  | .nan => true
  | _ => false

/-- a scalar that pandas stores in a numeric (non-object) column -/
def Cell.isNumScalar : Cell → Bool
  | .int _ => true
  | .real _ => true
  | .nan => true
  | _ => false

/-- a missing value usable as neither group key: NaN or None -/
def Cell.isMissing : Cell → Bool
  | .nan => true
  | .none => true
  | _ => false

/-- isinstance(x, list) -/
def Cell.isList : Cell → Bool
  | .list _ => true
  | _ => false

/-- numeric value of a scalar cell (0 for non-numeric, callers guard) -/
def Cell.toRat : Cell → Rat
  | .int n => (n : Rat)
  | .real q => q
  | _ => 0

/-- whether a float NaN occurs anywhere inside a cell, at any depth -/
def Cell.hasNan : Cell → Bool
  | .nan => true
  | .list xs => goList xs
  | _ => false
where goList : List Cell → Bool
  | [] => false
  | c :: cs => c.hasNan || goList cs

/-- A pandas Series, as the list of its cells (in row order). -/
abbrev Series := List Cell

/-- The pandas dtypes the modelled code distinguishes: integer kind "i",
floating kind "f", and object dtype "O". -/
inductive Dtype where
  | intK
  | floatK
  | obj
  deriving DecidableEq, Repr

/-- Pandas dtype inference for a stored column: all-int cells give an integer
dtype, numeric scalars (ints, floats, NaN) give a floating dtype, anything
else (strings, lists, None) gives object dtype.  Columns are modelled in
post-construction form, where None among numeric scalars has already been
coerced to NaN by pandas. -/
def seriesDtype (s : Series) : Dtype :=
  if s.isEmpty then .floatK
  else if s.all Cell.isInt then .intK
  else if s.all Cell.isNumScalar then .floatK
  else .obj

/-- data[0] on a Series with the default RangeIndex (KeyError when empty). -/
def seriesGet0 (s : Series) : Except PyErr Cell :=
  match s with
  | [] => .error (.keyError "0")
  | c :: _ => .ok c

/-- Series.apply with a fallible element function. -/
def seriesApply (f : Cell → Except PyErr Cell) (s : Series) : Except PyErr Series :=
  s.mapM f

/-- An association list with Python-dict semantics (insertion order kept,
assignment overwrites in place). -/
abbrev Dict (α : Type) := List (String × α)

/-- d[k] as an Option. -/
def dictLookup {α : Type} (d : Dict α) (k : String) : Option α :=
  (d.find? (fun kv => kv.1 == k)).map (fun kv => kv.2)

/-- k in d -/
def dictMem {α : Type} (d : Dict α) (k : String) : Bool :=
  (dictLookup d k).isSome

/-- d[k] = v: overwrite in place when the key exists, append otherwise. -/
def dictSet {α : Type} (d : Dict α) (k : String) (v : α) : Dict α :=
  if dictMem d k then d.map (fun kv => if kv.1 == k then (k, v) else kv)
  else d ++ [(k, v)]

/-- d.update(other): fold assignment over the other dict's entries. -/
def dictUpdate {α : Type} (d other : Dict α) : Dict α :=
  other.foldl (fun acc kv => dictSet acc kv.1 kv.2) d

/-- "needle in haystack" on Python strings. -/
def strContains (hay needle : String) : Bool :=
  hay.toList.tails.any (fun suf => needle.toList.isPrefixOf suf)

/-- A pandas DataFrame: named columns in order, each a list of cells.  All
columns of a well-formed frame have the same length (`DataFrame.wfB`). -/
structure DataFrame where
  cols : Dict (List Cell)
  deriving Repr

/-- df[name]: column extraction, KeyError when the column does not exist. -/
def DataFrame.getCol (df : DataFrame) (name : String) : Except PyErr Series :=
  match dictLookup df.cols name with
  | Option.some cs => .ok cs
  | Option.none => .error (.keyError name)

/-- number of rows (length of the first column). -/
def DataFrame.rowCount (df : DataFrame) : Nat :=
  match df.cols with
  | [] => 0
  | c :: _ => c.2.length

/-- rectangularity check: every column has the row count's length. -/
def DataFrame.wfB (df : DataFrame) : Bool :=
  df.cols.all (fun c => c.2.length == df.rowCount)

/-- comparison used by pandas to sort group keys; keys of distinct shapes
never occur in one grouping column in the modelled flows. -/
def Cell.keyLt : Cell → Cell → Bool
  | .str a, .str b => compare a b == .lt
  | .int a, .int b => decide (a < b)
  | .real a, .real b => decide (a < b)
  | .int a, .real b => decide ((a : Rat) < b)
  | .real a, .int b => decide (a < (b : Rat))
  | _, _ => false

/-- lexicographic order on group-key tuples. -/
def keyTupLt : List Cell → List Cell → Bool
  | [], _ => false
  | _ :: _, [] => false
  | a :: as, b :: bs => a.keyLt b || (a == b && keyTupLt as bs)

/-- insert into a sorted list. -/
def insertSorted {α : Type} (lt : α → α → Bool) (x : α) : List α → List α
  | [] => [x]
  | y :: ys => if lt x y then x :: y :: ys else y :: insertSorted lt x ys

/-- insertion sort by a boolean comparison. -/
def sortByB {α : Type} (lt : α → α → Bool) (l : List α) : List α :=
  l.foldr (insertSorted lt) []

/-- first-occurrence deduplication. -/
def dedupFirst {α : Type} [BEq α] (l : List α) : List α :=
  l.foldl (fun acc t => if acc.contains t then acc else acc ++ [t]) []

/-- df.groupby(keys).agg(list).reset_index(): group the rows on the key
columns (rows with a missing key are dropped, groups sorted ascending by key,
pandas' default sort=True), keep one row per distinct key tuple, aggregate
every non-key column into the list of its cells over the group's rows in the
original row order, and lay the key columns out first (reset_index). -/
def DataFrame.groupbyAgg (df : DataFrame) (keys : List String) : Except PyErr DataFrame := do
  let keyCols ← keys.mapM df.getCol
  let n := df.rowCount
  let keyTup : Nat → List Cell := fun i => keyCols.map (fun col => col.getD i Cell.none)
  let valid := (List.range n).filter (fun i => (keyTup i).all (fun c => !c.isMissing))
  let tuples := sortByB keyTupLt (dedupFirst (valid.map keyTup))
  let groupRows : List Cell → List Nat := fun t => valid.filter (fun i => keyTup i == t)
  let keyOut : Dict (List Cell) :=
    (List.range keys.length).map
      (fun j => (keys.getD j "", tuples.map (fun t => t.getD j Cell.none)))
  let others := df.cols.filter (fun c => !(keys.contains c.1))
  let aggOut : Dict (List Cell) :=
    others.map (fun kv =>
      (kv.1, tuples.map (fun t => Cell.list ((groupRows t).map (fun i => kv.2.getD i Cell.none)))))
  .ok ⟨keyOut ++ aggOut⟩

/-- Aesthetics = Dict[str, str]: a map from grammar role to column name. -/
abbrev Aesthetics := Dict String

/-- aes[role] where the caller has already checked role membership. -/
def aesGet (a : Aesthetics) (role : String) : String :=
  (dictLookup a role).getD ""

/-- aes(...) from aes.py: the dict literal over the nine enumerated roles (in
the source's literal order), with unset (None) roles dropped. -/
def aes (reaction metabolite condition y color size stack ymin ymax : Option String) :
    Aesthetics :=
  ([("reaction", reaction), ("metabolite", metabolite), ("condition", condition),
    ("y", y), ("ymin", ymin), ("ymax", ymax), ("color", color), ("size", size),
    ("stack", stack)]).filterMap
    (fun kv => kv.2.map (fun v => (kv.1, v)))

/-- which check_type implementation a geom variant uses: the Geom base-class
distribution check (also inherited by GeomBoxPoint, which defines no
check_type of its own), or the GeomArrow/GeomColumn scalar coercion check. -/
inductive CheckKind where
  | dist
  | scalar
  deriving DecidableEq, Repr

/-- The geom variants of geoms.py with their construction-time parameters. -/
inductive GeomKind where
  | hist (side : String) (mets : Bool)
  | kde (side : String) (mets : Bool)
  | arrow
  | metabolite
  | column (side : String)
  | boxpoint (side : String)

/-- the fixed role-to-shu-field mapping each variant's constructor installs. -/
def kindMapping : GeomKind → Dict String
  | .hist side mets =>
    [("y", if mets then "met_y"
           else if side == "left" then "left_y"
           else if side == "hover" then "hover_y"
           else "y")]
  | .kde side mets =>
    [("y", if mets then "kde_met_y"
           else if side == "left" then "kde_left_y"
           else if side == "hover" then "kde_hover_y"
           else "kde_y")]
  | .arrow => [("color", "colors"), ("size", "sizes")]
  | .metabolite => [("color", "met_colors"), ("size", "met_sizes")]
  | .column side =>
    let pre := if side == "left" then "left_" else ""
    [("y", pre ++ "column_y"), ("ymin", pre ++ "column_ymin"),
     ("ymax", pre ++ "column_ymax")]
  | .boxpoint side =>
    [("color", if side == "right" then "box_y" else "box_left_y"),
     ("stack", if side == "right" then "box_variant" else "box_left_variant")]

/-- which check_type a variant resolves to: GeomHist, GeomKde and GeomBoxPoint
use the inherited Geom.check_type (distribution check); GeomArrow,
GeomMetabolite and GeomColumn define the scalar coercion check. -/
def kindCheck : GeomKind → CheckKind
  | .hist _ _ => .dist
  | .kde _ _ => .dist
  | .arrow => .scalar
  | .metabolite => .scalar
  | .column _ => .scalar
  | .boxpoint _ => .dist

/-- whether the variant overrides Geom.map (only GeomBoxPoint does, passing
the stack column through without check_type). -/
def kindIsBox : GeomKind → Bool
  | .boxpoint _ => true
  | _ => false

/-- A constructed geom object: the optional bound frame and aesthetics from
Geom.__init__, the variant's mapping table, and its dispatch behaviour. -/
structure Geom where
  df : Option DataFrame
  aes : Option Aesthetics
  mapping : Dict String
  check : CheckKind
  isBoxpoint : Bool

/-- np.mean of one cell (Series.apply(np.mean)): numbers map to themselves as
floats, a list of numeric scalars to its arithmetic mean (NaN when any element
is NaN, and NaN with a runtime warning for the empty list); non-numeric input
raises TypeError.  (np.mean's flattening of rectangular nested numeric lists
is out of the modelled flows, where aggregated cells hold scalars.) -/
def npMean : Cell → Except PyErr Cell
  | .int n => .ok (.real (n : Rat))
  | .real q => .ok (.real q)
  | .nan => .ok .nan
  | .list xs =>
    if xs.all Cell.isNumScalar then
      if xs.isEmpty then .ok .nan
      else if xs.any (fun c => c.isMissing) then .ok .nan
      else .ok (.real ((xs.map Cell.toRat).sum / (xs.length : Rat)))
    else .error (.typeError "unsupported operand type for mean")
  | _ => .error (.typeError "unsupported operand type for mean")

/-- Geom.check_type (base class, the distribution check): asserts object
dtype, that data[0] is a list and that data[0][0] is an int or a float
(float NaN included), then returns the data unchanged.  Only the first cell
and its first element are inspected. -/
def checkTypeDist (data : Series) : Except PyErr Series := do
  if seriesDtype data ≠ .obj then
    .error (.assertionError "Data should be arrays")
  else do
    let c0 ← seriesGet0 data
    match c0 with
    | .list xs =>
      match xs with
      | [] => .error (.indexError "list index out of range")
      | x0 :: _ =>
        if x0.isInt || x0.isFloat then .ok data
        else .error (.assertionError "Each list should contain numbers")
    | _ => .error (.assertionError "Each row should contain a list")

/-- GeomArrow.check_type / GeomColumn.check_type (the scalar check): coerces
an object-dtype column cell-wise with np.mean (logging a warning), then
asserts a floating or integer dtype kind. -/
def checkTypeScalar (data : Series) : Except PyErr Series := do
  let data ← if seriesDtype data = .obj then seriesApply npMean data else .ok data
  if seriesDtype data = .floatK || seriesDtype data = .intK then .ok data
  else .error (.assertionError "Data should be numbers")

/-- dispatch self.check_type for a geom. -/
def checkTypeFor (g : Geom) (data : Series) : Except PyErr Series :=
  match g.check with
  | .dist => checkTypeDist data
  | .scalar => checkTypeScalar data

/-- the effective aesthetics of Geom.map: the geom's own bound aesthetics when
present, else the caller's. -/
def effAes (g : Geom) (a : Aesthetics) : Aesthetics :=
  match g.aes with
  | Option.none => a
  | Option.some ga => ga

/-- the effective table of Geom.map: the geom's own bound frame when present,
else the caller's (possibly absent) table. -/
def effDf (g : Geom) (df : Option DataFrame) : Option DataFrame :=
  match g.df with
  | Option.none => df
  | Option.some d => Option.some d

/-- one entry of Geom.map's dict comprehension: extract the column the
effective aesthetics names for the role and run it through check_type
(GeomBoxPoint passes the stack column through unchecked).  Extraction
raises TypeError when the effective table is None and KeyError when the named
column is absent. -/
def Geom.mapEntry (g : Geom) (df : Option DataFrame) (a : Aesthetics)
    (kv : String × String) : Except PyErr (String × Series) := do
  let d ← match effDf g df with
    | Option.none => .error (.typeError "NoneType object is not subscriptable")
    | Option.some d => .ok d
  let col ← d.getCol (aesGet (effAes g a) kv.1)
  let val ←
    if g.isBoxpoint && kv.1 == "stack" then .ok col
    else checkTypeFor g col
  .ok (kv.2, val)

/-- Geom.map / GeomBoxPoint.map: assert that at least one mapping role occurs
in the effective aesthetics, then build {shu_var: check_type(df[aes[role]])}
over the mapping roles present in the effective aesthetics (in mapping
order). -/
def Geom.map (g : Geom) (df : Option DataFrame) (a : Aesthetics) :
    Except PyErr (Dict Series) := do
  let aesInUse := effAes g a
  if !(g.mapping.any (fun kv => dictMem aesInUse kv.1)) then
    .error (.assertionError "This geom requires its aes to be specified")
  else
    (g.mapping.filter (fun kv => dictMem aesInUse kv.1)).mapM (g.mapEntry df a)

/-- variant construction: Geom.__init__ stores df and aes, but with a bound
dataframe the guard `assert NotImplemented("...")` calls the non-callable
NotImplemented singleton, raising TypeError before the assert is evaluated;
the subclass constructor then installs the variant mapping and post_init
asserts that every bound-aesthetics role other than metabolite/reaction is a
mapping key. -/
def mkGeom (k : GeomKind) (df : Option DataFrame) (a : Option Aesthetics) :
    Except PyErr Geom :=
  if df.isSome then
    .error (.typeError "NotImplementedType object is not callable")
  else
    let g : Geom :=
      { df := df, aes := a, mapping := kindMapping k, check := kindCheck k,
        isBoxpoint := kindIsBox k }
    match a with
    | Option.none => .ok g
    | Option.some ga =>
      if ga.all (fun kv =>
          kv.1 == "metabolite" || kv.1 == "reaction" || dictMem g.mapping kv.1) then
        .ok g
      else
        .error (.assertionError
          "Some of the aes passed directly passed to the geom are incompatible with it!")

/-- The PlotData state: governing aesthetics, original frame, the two grouped
frames, and the accumulating output map. -/
structure PlotData where
  aes : Aesthetics
  passed_df : DataFrame
  df_reac : Option DataFrame
  df_met : Option DataFrame
  plotting_data : Dict Series

/-- the reaction half of PlotData.__init__: when the reaction role is
present, group the source frame by [reaction column, condition column if
present] and seed the output map with the reactions (and conditions)
columns of the grouping. -/
def initReacHalf (df : DataFrame) (a : Aesthetics) :
    Except PyErr (Option DataFrame × Dict Series) :=
  if dictMem a "reaction" then do
    let reacGrouping :=
      (["reaction", "condition"].filter (fun v => dictMem a v)).map (aesGet a)
    let dr ← df.groupbyAgg reacGrouping
    let p := dictSet [] "reactions" (← dr.getCol (aesGet a "reaction"))
    let p ←
      if dictMem a "condition" then do
        .ok (dictSet p "conditions" (← dr.getCol (aesGet a "condition")))
      else .ok p
    .ok (Option.some dr, p)
  else .ok (Option.none, ([] : Dict Series))

/-- the metabolite half of PlotData.__init__, symmetric to the reaction
half, writing metabolites and met_conditions. -/
def initMetHalf (df : DataFrame) (a : Aesthetics) (pd1 : Dict Series) :
    Except PyErr (Option DataFrame × Dict Series) :=
  if dictMem a "metabolite" then do
    let metGrouping :=
      (["metabolite", "condition"].filter (fun v => dictMem a v)).map (aesGet a)
    let dm ← df.groupbyAgg metGrouping
    let p := dictSet pd1 "metabolites" (← dm.getCol (aesGet a "metabolite"))
    let p ←
      if dictMem a "condition" then do
        .ok (dictSet p "met_conditions" (← dm.getCol (aesGet a "condition")))
      else .ok p
    .ok (Option.some dm, p)
  else .ok (Option.none, pd1)

/-- PlotData.__init__: group the source frame by [reaction, condition] and by
[metabolite, condition] (each key only when its role is in the aesthetics),
and seed the output map with the grouped identity columns. -/
def PlotData.init (df : DataFrame) (a : Aesthetics) : Except PyErr PlotData := do
  let (dfReac, pd1) ← initReacHalf df a
  let (dfMet, pd2) ← initMetHalf df a pd1
  .ok ⟨a, df, dfReac, dfMet, pd2⟩

/-- whether a geom targets the metabolite scope: any of its mapping's shu
variables contains the substring "met". -/
def metTargeted (g : Geom) : Bool :=
  g.mapping.any (fun kv => strContains kv.2 "met")

/-- PlotData.__add__: decide the scope from the geom's mapping values; in the
metabolite scope a geom carrying its own metabolite aesthetics and no bound
frame re-groups the original frame on [its metabolite column, condition
column from the geom's else the plot's aesthetics], writing met_conditions
from the UNGROUPED original frame and metabolites from the new grouping; a
geom with a bound frame supplies metabolites directly from it.  The reaction
scope symmetrically refreshes reactions (without re-grouping).  Finally the
geom's resolved mapping is merged into the output map. -/
def PlotData.add (pd : PlotData) (g : Geom) : Except PyErr PlotData := do
  if metTargeted g then do
    let (dfMet, pdata) ←
      match g.aes with
      | Option.none => .ok (pd.df_met, pd.plotting_data)
      | Option.some ga =>
        if dictMem ga "metabolite" && g.df.isNone then do
          let (metGrouping, p) ←
            if dictMem ga "condition" then do
              let c ← pd.passed_df.getCol (aesGet ga "condition")
              .ok ([aesGet ga "metabolite", aesGet ga "condition"],
                   dictSet pd.plotting_data "met_conditions" c)
            else if dictMem pd.aes "condition" then do
              let c ← pd.passed_df.getCol (aesGet pd.aes "condition")
              .ok ([aesGet ga "metabolite", aesGet pd.aes "condition"],
                   dictSet pd.plotting_data "met_conditions" c)
            else .ok ([aesGet ga "metabolite"], pd.plotting_data)
          let dm ← pd.passed_df.groupbyAgg metGrouping
          let mcol ← dm.getCol (aesGet ga "metabolite")
          .ok (Option.some dm, dictSet p "metabolites" mcol)
        else if dictMem ga "metabolite" then do
          match g.df with
          | Option.some d => do
            let mcol ← d.getCol (aesGet ga "metabolite")
            .ok (pd.df_met, dictSet pd.plotting_data "metabolites" mcol)
          | Option.none => .error (.typeError "unreachable")
        else .ok (pd.df_met, pd.plotting_data)
    let res ← g.map dfMet pd.aes
    .ok { pd with df_met := dfMet, plotting_data := dictUpdate pdata res }
  else do
    let pdata ←
      match g.aes with
      | Option.none => .ok pd.plotting_data
      | Option.some ga =>
        if dictMem ga "reaction" && g.df.isNone then do
          let rName ←
            match dictLookup pd.aes "reaction" with
            | Option.some v => .ok v
            | Option.none => .error (.keyError "reaction")
          let dr ←
            match pd.df_reac with
            | Option.some d => .ok d
            | Option.none => .error (.typeError "NoneType object is not subscriptable")
          let rcol ← dr.getCol rName
          .ok (dictSet pd.plotting_data "reactions" rcol)
        else if dictMem ga "reaction" then do
          match g.df with
          | Option.some d => do
            let rcol ← d.getCol (aesGet ga "reaction")
            .ok (dictSet pd.plotting_data "reactions" rcol)
          | Option.none => .error (.typeError "unreachable")
        else .ok pd.plotting_data
    let res ← g.map pd.df_reac pd.aes
    .ok { pd with plotting_data := dictUpdate pdata res }

/-- Consequence definition for the unreachable-branch claim: __add__ with the
two bound-frame branches (metabolites/reactions taken from other.df) removed.
For a geom whose construction succeeded (df = None) the original __add__
never enters those branches and agrees with this definition. -/
def PlotData.addNoBound (pd : PlotData) (g : Geom) : Except PyErr PlotData := do
  if metTargeted g then do
    let (dfMet, pdata) ←
      match g.aes with
      | Option.none => .ok (pd.df_met, pd.plotting_data)
      | Option.some ga =>
        if dictMem ga "metabolite" && g.df.isNone then do
          let (metGrouping, p) ←
            if dictMem ga "condition" then do
              let c ← pd.passed_df.getCol (aesGet ga "condition")
              .ok ([aesGet ga "metabolite", aesGet ga "condition"],
                   dictSet pd.plotting_data "met_conditions" c)
            else if dictMem pd.aes "condition" then do
              let c ← pd.passed_df.getCol (aesGet pd.aes "condition")
              .ok ([aesGet ga "metabolite", aesGet pd.aes "condition"],
                   dictSet pd.plotting_data "met_conditions" c)
            else .ok ([aesGet ga "metabolite"], pd.plotting_data)
          let dm ← pd.passed_df.groupbyAgg metGrouping
          let mcol ← dm.getCol (aesGet ga "metabolite")
          .ok (Option.some dm, dictSet p "metabolites" mcol)
        else .ok (pd.df_met, pd.plotting_data)
    let res ← g.map dfMet pd.aes
    .ok { pd with df_met := dfMet, plotting_data := dictUpdate pdata res }
  else do
    let pdata ←
      match g.aes with
      | Option.none => .ok pd.plotting_data
      | Option.some ga =>
        if dictMem ga "reaction" && g.df.isNone then do
          let rName ←
            match dictLookup pd.aes "reaction" with
            | Option.some v => .ok v
            | Option.none => .error (.keyError "reaction")
          let dr ←
            match pd.df_reac with
            | Option.some d => .ok d
            | Option.none => .error (.typeError "NoneType object is not subscriptable")
          let rcol ← dr.getCol rName
          .ok (dictSet pd.plotting_data "reactions" rcol)
        else .ok pd.plotting_data
    let res ← g.map pd.df_reac pd.aes
    .ok { pd with plotting_data := dictUpdate pdata res }

/-- PlotData.__truediv__: union the other instance's output map into this
one's, overwriting on key collision. -/
def PlotData.truediv (pd other : PlotData) : PlotData :=
  { pd with plotting_data := dictUpdate pd.plotting_data other.plotting_data }

/-- not_null from ggdata.py: None is null; a float is null iff it is NaN;
everything else is non-null. -/
def not_null (x : Cell) : Bool :=
  match x with
  | .none => false
  | .nan => false
  | _ => true

/-- wrap_list_or_item from ggdata.py: keep a list whose elements are all
non-null, replace a list with a null element by [null_value], and wrap a
non-list into a singleton. -/
def wrap_list_or_item (x : Cell) (nullValue : Cell) : List Cell :=
  match x with
  | .list ys => if ys.all not_null then ys else [nullValue]
  | _ => [x]

/-- the reduce(lambda acc, x: acc + wrap_list_or_item(x, null_value), ...) of
to_dict's box-field pass. -/
def flattenBox (cells : List Cell) (nullValue : Cell) : List Cell :=
  cells.foldl (fun acc x => acc ++ wrap_list_or_item x nullValue) []

/-- one element of to_dict's generic sanitization: math.isnan keeps ints and
non-NaN floats, maps float NaN to the string sentinel "NaN", and raises
TypeError on anything else (None, strings, nested lists). -/
def replaceNanElem (v : Cell) : Except PyErr Cell :=
  match v with
  | .int n => .ok (.int n)
  | .real q => .ok (.real q)
  | .nan => .ok (.str "NaN")
  | _ => .error (.typeError "must be real number, not NoneType")

/-- to_dict's generic per-cell sanitization: one level deep into list cells,
math.isnan on everything else. -/
def sanitizeCell : Cell → Except PyErr Cell
  | .list vs => (vs.mapM replaceNanElem).map Cell.list
  | v => replaceNanElem v

/-- the to_flatten list of to_dict. -/
def toFlatten : List String := ["box_y", "box_left_y", "box_variant", "box_left_variant"]

/-- the fields to_dict's generic sanitization skips. -/
def identityFields : List String :=
  ["reactions", "conditions", "metabolites", "met_conditions", "box_variant",
   "box_left_variant"]

/-- one step of to_dict's box-field pass: when the field is present, flatten
it row-wise through wrap_list_or_item (null value float NaN for the *_y
fields - "y" in v_aes - and the string "NaN" for the *_variant fields). -/
def flattenStep (acc : Dict (List Cell)) (vAes : String) : Dict (List Cell) :=
  if dictMem acc vAes then
    let nullValue := if strContains vAes "y" then Cell.nan else Cell.str "NaN"
    dictSet acc vAes (flattenBox ((dictLookup acc vAes).getD []) nullValue)
  else acc

/-- one entry of to_dict's generic sanitization loop: fields in the identity
list pass through, every other field is sanitized cell-wise. -/
def sanitizeEntry (kv : String × List Cell) : Except PyErr (String × List Cell) :=
  if identityFields.contains kv.1 then .ok kv
  else do
    let vs ← kv.2.mapM sanitizeCell
    .ok (kv.1, vs)

/-- PlotData.to_dict on an output map: materialize each column, flatten the
four box fields row-wise, then apply the generic NaN-to-"NaN" sanitization
to every field outside the identity list. -/
def toDict (pdata : Dict Series) : Except PyErr (Dict (List Cell)) := do
  let shu : Dict (List Cell) := pdata.map (fun kv => (kv.1, kv.2))
  let shu := toFlatten.foldl flattenStep shu
  shu.mapM sanitizeEntry

/-- PlotData.to_dict. -/
def PlotData.to_dict (pd : PlotData) : Except PyErr (Dict (List Cell)) :=
  toDict pd.plotting_data

/-! Auxiliary definitions used to state the verified properties. -/

/-- extract the payload of an Except with a fallback. -/
def exceptGetD {ε α : Type} (e : Except ε α) (dfl : α) : α :=
  match e with
  | .ok a => a
  | .error _ => dfl

/-- whether an Except carries a value. -/
def exceptIsOk {ε α : Type} (e : Except ε α) : Bool :=
  match e with
  | .ok _ => true
  | .error _ => false

/-- whether an Except carries an AssertionError. -/
def isAssertionErr {α : Type} (e : Except PyErr α) : Bool :=
  match e with
  | .error (.assertionError _) => true
  | _ => false

/-- whether an Except carries a TypeError. -/
def isTypeErr {α : Type} (e : Except PyErr α) : Bool :=
  match e with
  | .error (.typeError _) => true
  | _ => false

/-- rectangularity of an optional grouped frame (vacuously true for None). -/
def optWfB (o : Option DataFrame) : Bool :=
  match o with
  | Option.none => true
  | Option.some d => d.wfB

/-- the condition the distribution check actually decides on the cells: the
first cell is a list whose first element is an int or a float. -/
def firstCellDistOk (s : Series) : Bool :=
  match s with
  | .list (x :: _) :: _ => x.isInt || x.isFloat
  | _ => false

/-- an int or a float proper (NaN excluded): a numeric element. -/
def Cell.isNum : Cell → Bool
  | .int _ => true
  | .real _ => true
  | _ => false

/-- the elements of a list cell. -/
def Cell.elems : Cell → List Cell
  | .list xs => xs
  | _ => []

/-- a cell admissible for the box-field rows of the serialization claim: a
list of numeric scalars or missing values (None / NaN). -/
def boxCellOk : Cell → Bool
  | .list xs => xs.all (fun x => x.isNumScalar || x.isMissing)
  | _ => false

/-- The per-row all-or-nothing rule as the spec states it, in its serialized
form: a list cell with a missing element becomes the single-element sentinel
list, a list of non-missing elements is kept, a bare cell is wrapped. -/
def boxRowAllOrNothing (c : Cell) : List Cell :=
  match c with
  | .list xs => if xs.all not_null then xs else [.str "NaN"]
  | c => [c]

/-- a cell over which the scalar-coercion claim quantifies: a nonempty list
of numeric elements. -/
def c7CellOk : Cell → Bool
  | .list (x :: xs) => (x :: xs).all Cell.isNum
  | _ => false

/-- the arithmetic mean, as the spec phrases the scalar coercion. -/
def arithMeanSpec (xs : List Cell) : Rat :=
  (xs.map Cell.toRat).sum / (xs.length : Rat)

/-- a cell with no missing numeric deeper than the sanitization reaches: a
numeric scalar or a flat list of numeric scalars. -/
def depth1NumOk : Cell → Bool
  | .list xs => xs.all Cell.isNumScalar
  | c => c.isNumScalar

/-- whether a geom's own bound aesthetics (if any) avoids the two identity
roles whose presence makes __add__ rewrite grouping state. -/
def ownAesNoIdentity (g : Geom) : Bool :=
  match g.aes with
  | Option.none => true
  | Option.some ga => !(dictMem ga "metabolite") && !(dictMem ga "reaction")

/-- fallback geom for Except extraction. -/
def geomFallback : Geom :=
  { df := Option.none, aes := Option.none, mapping := [], check := .dist,
    isBoxpoint := false }

/-- fallback frame for Except extraction. -/
def dfFallback : DataFrame := ⟨[]⟩

/-- fallback PlotData for Except extraction. -/
def pdFallback : PlotData := ⟨[], dfFallback, Option.none, Option.none, []⟩

/-! Concrete data used by the counterexamples and witnesses. -/

/-- the spec's concrete scenario: r=["a","a","b"], flux=[1,2,3]. -/
def c7Df : DataFrame :=
  ⟨[("r", [.str "a", .str "a", .str "b"]), ("flux", [.int 1, .int 2, .int 3])]⟩

/-- aes(reaction="r", color="flux") -/
def c7Aes : Aesthetics :=
  aes (Option.some "r") Option.none Option.none Option.none (Option.some "flux")
    Option.none Option.none Option.none Option.none

/-- ggmap(df, aes(reaction="r", color="flux")) + geom_arrow() -/
def c7Chain : Except PyErr PlotData := do
  let pd ← PlotData.init c7Df c7Aes
  let g ← mkGeom .arrow Option.none Option.none
  pd.add g

/-- two rows sharing the (metabolite, condition) pair, so that the ungrouped
frame is strictly longer than the metabolite grouping. -/
def c1Df : DataFrame :=
  ⟨[("m2", [.str "p", .str "p"]), ("cond", [.str "x", .str "x"]),
    ("conc", [.int 1, .int 2])]⟩

/-- aes(condition="cond") -/
def c1Aes : Aesthetics :=
  aes Option.none Option.none (Option.some "cond") Option.none Option.none
    Option.none Option.none Option.none Option.none

/-- aes(metabolite="m2", color="conc") bound to the geom itself -/
def c1GeomAes : Aesthetics :=
  aes Option.none (Option.some "m2") Option.none Option.none (Option.some "conc")
    Option.none Option.none Option.none Option.none

/-- ggmap(df, aes(condition="cond")) + geom_metabolite(aes=aes(metabolite="m2",
color="conc")): the geom re-derives the metabolite grouping while
met_conditions is taken from the ungrouped frame. -/
def c1Chain : Except PyErr PlotData := do
  let pd ← PlotData.init c1Df c1Aes
  let g ← mkGeom .metabolite Option.none (Option.some c1GeomAes)
  pd.add g

/-- the PlotData the counterexample chain produces. -/
def c1Pd : PlotData := exceptGetD c1Chain pdFallback

/-- frame where the plot-level metabolite column m and a geom-level
metabolite column m2 group differently. -/
def c8Df : DataFrame :=
  ⟨[("m", [.str "u", .str "u"]), ("m2", [.str "v", .str "w"]),
    ("kcat", [.real 1, .real 2]), ("conc", [.real 1, .real 1])]⟩

/-- aes(metabolite="m", y="kcat") -/
def c8Aes : Aesthetics :=
  aes Option.none (Option.some "m") Option.none (Option.some "kcat") Option.none
    Option.none Option.none Option.none Option.none

/-- geom_metabolite(aes=aes(metabolite="m2", color="conc")): output fields
{met_colors, met_sizes}. -/
def c8GeomA : Except PyErr Geom :=
  mkGeom .metabolite Option.none
    (Option.some (aes Option.none (Option.some "m2") Option.none Option.none
      (Option.some "conc") Option.none Option.none Option.none Option.none))

/-- geom_hist(mets=True): output field {met_y}, disjoint from geom A's. -/
def c8GeomB : Except PyErr Geom := mkGeom (.hist "right" true) Option.none Option.none

/-- composing A then B. -/
def c8AB : Except PyErr PlotData := do
  let pd ← PlotData.init c8Df c8Aes
  let pd ← pd.add (← c8GeomA)
  pd.add (← c8GeomB)

/-- composing B then A. -/
def c8BA : Except PyErr PlotData := do
  let pd ← PlotData.init c8Df c8Aes
  let pd ← pd.add (← c8GeomB)
  pd.add (← c8GeomA)

/-- a geom_arrow() as constructed (witness data). -/
def c6Geom : Geom := exceptGetD (mkGeom .arrow Option.none Option.none) geomFallback

/-- one-column frame with a plain integer column (witness data). -/
def c6Df : DataFrame := ⟨[("flux", [.int 1])]⟩

/-- aes(color="flux") (witness data). -/
def c6AesOk : Aesthetics :=
  aes Option.none Option.none Option.none Option.none (Option.some "flux")
    Option.none Option.none Option.none Option.none

/-- aes(y="kcat"), sharing no role with geom_arrow's mapping (witness data). -/
def c6AesErr : Aesthetics :=
  aes Option.none Option.none Option.none (Option.some "kcat") Option.none
    Option.none Option.none Option.none Option.none

/-- the resolution result for the successful witness call. -/
def c6Res : Dict Series := exceptGetD (Geom.map c6Geom (Option.some c6Df) c6AesOk) []

/-- a geom_hist(side="left") as constructed (witness data). -/
def c5Geom : Geom := exceptGetD (mkGeom (.hist "left" false) Option.none Option.none) geomFallback

/-- the PlotData built by the concrete scenario chain. -/
def c7Pd : PlotData := exceptGetD c7Chain pdFallback

/-- geom_arrow composed onto the scenario data, for the compose-invariant
witness: the plot of c7Df with aes(reaction="r", color="flux"). -/
def c1wPd : PlotData := exceptGetD (PlotData.init c7Df c7Aes) pdFallback

/-- the geom of the compose-invariant witness. -/
def c1wGeom : Geom := exceptGetD (mkGeom .arrow Option.none Option.none) geomFallback

/-- the state after the witness compose step. -/
def c1wPd2 : PlotData := exceptGetD (c1wPd.add c1wGeom) pdFallback

/-- the colors series the witness compose step produced. -/
def c1wCol : Series := (dictLookup c1wPd2.plotting_data "colors").getD []

/-- the series of the initial-state witness entry. -/
def c1wReac : Series := (dictLookup c1wPd.plotting_data "reactions").getD []

/-- box-field cells of the serialization witness. -/
def c2wCells : List Cell :=
  [.list [.int 1, .int 2], .list [.real 1, .none, .real 2], .list [.nan, .int 3]]

/-- output map of the sanitization witness: a colors field with missing
numerics at depth 0 and 1, and an identity field. -/
def c4wPdata : Dict Series :=
  [("colors", [.nan, .list [.int 1, .nan]]), ("metabolites", [.str "g"])]

/-- the serialized output of the sanitization witness. -/
def c4wOut : Dict (List Cell) := exceptGetD (toDict c4wPdata) []

/-- PlotData states of the commutation witness (two scalar geoms without own
aesthetics over the scenario frame). -/
def c8wGeomA : Geom := exceptGetD (mkGeom .arrow Option.none Option.none) geomFallback

/-- the second geom of the commutation witness, with disjoint output fields. -/
def c8wGeomB : Geom :=
  exceptGetD (mkGeom (.column "right") Option.none Option.none) geomFallback

/-- aes(reaction="r", color="flux", y="flux") for the commutation witness. -/
def c8wAes : Aesthetics :=
  aes (Option.some "r") Option.none Option.none (Option.some "flux")
    (Option.some "flux") Option.none Option.none Option.none Option.none

/-- the base PlotData of the commutation witness. -/
def c8wPd : PlotData := exceptGetD (PlotData.init c7Df c8wAes) pdFallback

/-- A then B for the commutation witness. -/
def c8wAB : Except PyErr PlotData := (c8wPd.add c8wGeomA).bind (fun p => p.add c8wGeomB)

/-- the A-then-B result of the commutation witness. -/
def c8wPdAB : PlotData := exceptGetD c8wAB pdFallback


/-! Library lemmas about the dict model. -/

theorem dictLookup_cons {α : Type} (kv : String × α) (d : Dict α) (k : String) :
    dictLookup (kv :: d) k = if kv.1 == k then Option.some kv.2 else dictLookup d k := by
  by_cases h : kv.1 == k <;> simp [dictLookup, List.find?, h]

theorem dictMem_cons {α : Type} (kv : String × α) (d : Dict α) (k : String) :
    dictMem (kv :: d) k = ((kv.1 == k) || dictMem d k) := by
  by_cases h : kv.1 == k <;> simp [dictMem, dictLookup_cons, h]

theorem dictLookup_mem {α : Type} {d : Dict α} {k : String} {v : α}
    (h : dictLookup d k = Option.some v) : (k, v) ∈ d := by
  induction d with
  | nil => simp [dictLookup] at h
  | cons kv d ih =>
    rw [dictLookup_cons] at h
    by_cases hk : (kv.1 == k) = true
    · simp only [hk, if_true, Option.some.injEq] at h
      rcases kv with ⟨k1, v1⟩
      have hk1 : k1 = k := by simpa using hk
      subst hk1; subst h
      exact List.mem_cons_self _ _
    · rw [if_neg hk] at h
      exact List.mem_cons_of_mem _ (ih h)

theorem dictMem_false_no_key {α : Type} {d : Dict α} {k : String}
    (h : dictMem d k = false) : ∀ kv ∈ d, (kv.1 == k) = false := by
  induction d with
  | nil => intro kv hkv; simp at hkv
  | cons kv0 d ih =>
    rw [dictMem_cons] at h
    rcases Bool.or_eq_false_iff.mp h with ⟨h1, h2⟩
    intro kv hkv
    rcases List.mem_cons.mp hkv with heq | hmem
    · subst heq; exact h1
    · exact ih h2 kv hmem

theorem dictLookup_replace_self {α : Type} (d : Dict α) (k : String) (v : α) :
    dictLookup (d.map (fun kv => if kv.1 == k then (k, v) else kv)) k =
      if dictMem d k then Option.some v else Option.none := by
  induction d with
  | nil => simp [dictLookup, dictMem]
  | cons kv d ih =>
    by_cases hk : (kv.1 == k) = true
    · have hk' : kv.1 = k := by simpa using hk
      simp [dictLookup_cons, dictMem_cons, hk, hk']
    · simp only [List.map_cons, hk, if_false, Bool.false_eq_true, dictLookup_cons,
        dictMem_cons, Bool.false_or, ite_false]
      exact ih

theorem dictLookup_replace_ne {α : Type} (d : Dict α) (k k2 : String) (v : α)
    (h : k2 ≠ k) :
    dictLookup (d.map (fun kv => if kv.1 == k then (k, v) else kv)) k2 =
      dictLookup d k2 := by
  induction d with
  | nil => simp [dictLookup]
  | cons kv d ih =>
    by_cases hk : (kv.1 == k) = true
    · have hkk2 : (k == k2) = false := by
        simp only [beq_eq_false_iff_ne, ne_eq]
        intro heq; exact h heq.symm
      have hkv2 : (kv.1 == k2) = false := by
        have hkv1 : kv.1 = k := by simpa using hk
        rw [hkv1]; exact hkk2
      simp only [List.map_cons, hk, if_true, dictLookup_cons, hkk2, hkv2]
      simpa using ih
    · simp only [List.map_cons, hk, if_false, Bool.false_eq_true, ite_false,
        dictLookup_cons]
      by_cases hkv2 : (kv.1 == k2) = true
      · simp [hkv2]
      · simp only [hkv2, if_false, Bool.false_eq_true, ite_false]
        exact ih

theorem dictLookup_append {α : Type} (d d2 : Dict α) (k : String) :
    dictLookup (d ++ d2) k =
      match dictLookup d k with
      | Option.some v => Option.some v
      | Option.none => dictLookup d2 k := by
  induction d with
  | nil => simp [dictLookup]
  | cons kv d ih =>
    by_cases hk : (kv.1 == k) = true
    · simp [dictLookup_cons, hk]
    · simp only [List.cons_append, dictLookup_cons, hk, Bool.false_eq_true, ite_false]
      exact ih

theorem dictLookup_set_self {α : Type} (d : Dict α) (k : String) (v : α) :
    dictLookup (dictSet d k v) k = Option.some v := by
  unfold dictSet
  by_cases hm : dictMem d k
  · rw [if_pos hm, dictLookup_replace_self, if_pos hm]
  · rw [if_neg hm, dictLookup_append]
    have hnone : dictLookup d k = Option.none := by
      cases hd : dictLookup d k with
      | none => rfl
      | some w => exact absurd (by simp [dictMem, hd]) hm
    rw [hnone]
    simp [dictLookup_cons]

theorem dictLookup_set_ne {α : Type} (d : Dict α) (k k2 : String) (v : α)
    (h : k2 ≠ k) : dictLookup (dictSet d k v) k2 = dictLookup d k2 := by
  unfold dictSet
  by_cases hm : dictMem d k
  · rw [if_pos hm, dictLookup_replace_ne _ _ _ _ h]
  · rw [if_neg hm, dictLookup_append]
    have h2 : dictLookup [(k, v)] k2 = Option.none := by
      have : (k == k2) = false := by
        simp only [beq_eq_false_iff_ne, ne_eq]
        intro heq; exact h heq.symm
      simp [dictLookup_cons, this, dictLookup]
    cases hd : dictLookup d k2 with
    | some w => simp
    | none => simpa using h2

theorem mem_dictSet {α : Type} {d : Dict α} {k : String} {v : α} {x : String × α}
    (h : x ∈ dictSet d k v) : x = (k, v) ∨ (x ∈ d ∧ (x.1 == k) = false) := by
  unfold dictSet at h
  by_cases hm : dictMem d k
  · rw [if_pos hm] at h
    rcases List.mem_map.mp h with ⟨kv, hkv, hx⟩
    by_cases hk : (kv.1 == k) = true
    · rw [if_pos hk] at hx; exact Or.inl hx.symm
    · rw [if_neg hk] at hx; subst hx
      exact Or.inr ⟨hkv, by simpa using hk⟩
  · rw [if_neg hm] at h
    rcases List.mem_append.mp h with hd | hlast
    · exact Or.inr ⟨hd, dictMem_false_no_key (by simpa using hm) x hd⟩
    · simp at hlast; exact Or.inl hlast

theorem mem_dictUpdate {α : Type} {o : Dict α} :
    ∀ {d : Dict α} {x : String × α}, x ∈ dictUpdate d o → x ∈ d ∨ x ∈ o := by
  induction o with
  | nil => intro d x h; exact Or.inl h
  | cons kv rest ih =>
    intro d x h
    have h2 : x ∈ dictUpdate (dictSet d kv.1 kv.2) rest := h
    rcases ih h2 with hset | hrest
    · rcases mem_dictSet hset with heq | ⟨hd, _⟩
      · right
        rw [heq]
        exact List.mem_cons_self _ _
      · exact Or.inl hd
    · exact Or.inr (List.mem_cons_of_mem _ hrest)

theorem dictLookup_update_not_mem {α : Type} {o : Dict α} {k : String}
    (h : ∀ kv ∈ o, kv.1 ≠ k) :
    ∀ (d : Dict α), dictLookup (dictUpdate d o) k = dictLookup d k := by
  induction o with
  | nil => intro d; rfl
  | cons kv rest ih =>
    intro d
    have step : dictUpdate d (kv :: rest) = dictUpdate (dictSet d kv.1 kv.2) rest := rfl
    rw [step, ih (fun kv2 h2 => h kv2 (List.mem_cons_of_mem _ h2)),
      dictLookup_set_ne]
    exact fun heq => h kv (List.mem_cons_self _ _) heq.symm

theorem dictLookup_update_of_mem {α : Type} {o : Dict α} {k : String}
    (hm : dictMem o k = true) :
    ∀ (d d' : Dict α), dictLookup (dictUpdate d o) k = dictLookup (dictUpdate d' o) k := by
  induction o with
  | nil => simp [dictMem, dictLookup] at hm
  | cons kv rest ih =>
    intro d d'
    have step : ∀ (e : Dict α), dictUpdate e (kv :: rest) = dictUpdate (dictSet e kv.1 kv.2) rest := fun _ => rfl
    rw [step, step]
    by_cases hr : dictMem rest k
    · exact ih hr _ _
    · have hknone : ∀ kv2 ∈ rest, kv2.1 ≠ k := by
        intro kv2 h2 heq
        have := dictMem_false_no_key (by simpa using hr) kv2 h2
        rw [heq] at this
        simp at this
      rw [dictLookup_update_not_mem hknone, dictLookup_update_not_mem hknone]
      have hkv1 : (kv.1 == k) = true := by
        rw [dictMem_cons] at hm
        rcases Bool.or_eq_true_iff.mp hm with h1 | h2
        · exact h1
        · exact absurd h2 (by simp [hr])
      have hkv1' : kv.1 = k := by simpa using hkv1
      rw [← hkv1', dictLookup_set_self, dictLookup_set_self]

/-! Lemmas about mapM over Except, the type checks and grouping. -/

theorem mapM_nil_ok_iff {α β : Type} (f : α → Except PyErr β) (r : List β) :
    ([] : List α).mapM f = .ok r ↔ r = [] := by
  constructor
  · intro h
    have : (Except.ok [] : Except PyErr (List β)) = .ok r := h
    simpa [eq_comm] using this
  · intro h; subst h; rfl

theorem mapM_cons_ok_iff {α β : Type} (f : α → Except PyErr β) (a : α) (l : List α)
    (r : List β) :
    (a :: l).mapM f = .ok r ↔
      ∃ b bs, f a = .ok b ∧ l.mapM f = .ok bs ∧ r = b :: bs := by
  rw [List.mapM_cons]
  cases hfa : f a with
  | error e =>
    constructor
    · intro h; simp [Bind.bind, Except.bind] at h
    · rintro ⟨b, bs, hb, _, _⟩; simp at hb
  | ok b =>
    cases hl : l.mapM f with
    | error e =>
      constructor
      · intro h; simp [Bind.bind, Except.bind] at h
      · rintro ⟨b2, bs, hb, hbs, _⟩; simp at hbs
    | ok bs =>
      constructor
      · intro h
        simp only [Bind.bind, Except.bind, pure, Except.pure, Except.ok.injEq] at h
        exact ⟨b, bs, rfl, rfl, h.symm⟩
      · rintro ⟨b2, bs2, hb, hbs, hr⟩
        have hb2 : b = b2 := by simpa using hb
        have hbs2 : bs = bs2 := by simpa using hbs
        subst hb2; subst hbs2; subst hr
        simp [Bind.bind, Except.bind, pure, Except.pure]

theorem mapM_ok_length {α β : Type} {f : α → Except PyErr β} :
    ∀ {l : List α} {r : List β}, l.mapM f = .ok r → r.length = l.length := by
  intro l
  induction l with
  | nil => intro r h; rw [mapM_nil_ok_iff] at h; simp [h]
  | cons a l ih =>
    intro r h
    rw [mapM_cons_ok_iff] at h
    rcases h with ⟨b, bs, _, hbs, hr⟩
    subst hr
    simp [ih hbs]

theorem checkTypeDist_ok_iff (s t : Series) :
    checkTypeDist s = .ok t ↔ (t = s ∧ seriesDtype s = .obj ∧ firstCellDistOk s = true) := by
  unfold checkTypeDist
  by_cases h : seriesDtype s = Dtype.obj
  · cases s with
    | nil => simp [seriesDtype] at h
    | cons c cs =>
      cases c with
      | list xs =>
        cases xs with
        | nil =>
          simp [h, seriesGet0, Bind.bind, Except.bind, firstCellDistOk]
        | cons x rest =>
          by_cases hx : (x.isInt || x.isFloat) = true
          · simp only [h, ne_eq, not_true_eq_false, if_false, seriesGet0, Bind.bind,
              Except.bind, hx, if_true, firstCellDistOk, Except.ok.injEq, and_true,
              eq_self_iff_true]
            exact eq_comm
          · simp [h, seriesGet0, Bind.bind, Except.bind, hx, firstCellDistOk]
      | int n => simp [h, seriesGet0, Bind.bind, Except.bind, firstCellDistOk]
      | real q => simp [h, seriesGet0, Bind.bind, Except.bind, firstCellDistOk]
      | nan => simp [h, seriesGet0, Bind.bind, Except.bind, firstCellDistOk]
      | none => simp [h, seriesGet0, Bind.bind, Except.bind, firstCellDistOk]
      | str a => simp [h, seriesGet0, Bind.bind, Except.bind, firstCellDistOk]
  · simp [h]

theorem checkTypeScalar_ok_length {s t : Series} (h : checkTypeScalar s = .ok t) :
    t.length = s.length := by
  unfold checkTypeScalar at h
  by_cases hd : seriesDtype s = Dtype.obj
  · rw [if_pos hd] at h
    cases happ : seriesApply npMean s with
    | error e => rw [happ] at h; simp [Bind.bind, Except.bind] at h
    | ok s2 =>
      rw [happ] at h
      simp only [Bind.bind, Except.bind] at h
      have hlen : s2.length = s.length := mapM_ok_length happ
      by_cases hk : seriesDtype s2 = Dtype.floatK ∨ seriesDtype s2 = Dtype.intK
      · rcases hk with hk | hk <;> simp only [hk, if_true, ite_true,
          eq_self_iff_true, true_or, or_true] at h <;>
          · have : t = s2 := by simpa [eq_comm] using h
            rw [this]; exact hlen
      · push_neg at hk
        simp [hk.1, hk.2] at h
  · rw [if_neg hd] at h
    simp only [Bind.bind, Except.bind] at h
    by_cases hk : seriesDtype s = Dtype.floatK ∨ seriesDtype s = Dtype.intK
    · rcases hk with hk | hk <;> simp only [hk, if_true, ite_true, eq_self_iff_true,
        true_or, or_true] at h <;>
        · have : t = s := by simpa [eq_comm] using h
          rw [this]
    · push_neg at hk
      simp [hk.1, hk.2] at h

theorem checkTypeFor_ok_length {g : Geom} {s t : Series} (h : checkTypeFor g s = .ok t) :
    t.length = s.length := by
  unfold checkTypeFor at h
  cases hc : g.check with
  | dist =>
    rw [hc] at h
    rcases (checkTypeDist_ok_iff s t).mp h with ⟨heq, _, _⟩
    rw [heq]
  | scalar =>
    rw [hc] at h
    exact checkTypeScalar_ok_length h

theorem getCol_ok_lookup {d : DataFrame} {nm : String} {col : Series}
    (h : d.getCol nm = .ok col) : dictLookup d.cols nm = Option.some col := by
  unfold DataFrame.getCol at h
  cases hl : dictLookup d.cols nm with
  | some cs => rw [hl] at h; simpa [eq_comm] using h
  | none => rw [hl] at h; simp at h

theorem wfB_col_length {d : DataFrame} {nm : String} {col : Series}
    (hwf : d.wfB = true) (h : dictLookup d.cols nm = Option.some col) :
    col.length = d.rowCount := by
  have hmem : (nm, col) ∈ d.cols := dictLookup_mem h
  have := (List.all_eq_true.mp hwf) _ hmem
  simpa using this

theorem groupbyAgg_wf {df : DataFrame} {keys : List String} {d : DataFrame}
    (h : df.groupbyAgg keys = .ok d) : d.wfB = true := by
  unfold DataFrame.groupbyAgg at h
  cases hkc : keys.mapM df.getCol with
  | error e => rw [hkc] at h; simp [Bind.bind, Except.bind] at h
  | ok keyCols =>
    rw [hkc] at h
    simp only [Bind.bind, Except.bind, Except.ok.injEq] at h
    set tuples := sortByB keyTupLt (dedupFirst
      (((List.range df.rowCount).filter
        (fun i => ((keyCols.map (fun col => col.getD i Cell.none)).all
          (fun c => !c.isMissing)))).map
        (fun i => keyCols.map (fun col => col.getD i Cell.none)))) with htup
    have hall : ∀ kv ∈ d.cols, kv.2.length = tuples.length := by
      intro kv hkv
      rw [← h] at hkv
      simp only [DataFrame.cols] at hkv
      rcases List.mem_append.mp hkv with hkey | hagg
      · rcases List.mem_map.mp hkey with ⟨j, _, hj⟩
        rw [← hj]
        simp
      · rcases List.mem_map.mp hagg with ⟨kv2, _, hkv2⟩
        rw [← hkv2]
        simp
    rw [DataFrame.wfB, List.all_eq_true]
    intro kv hkv
    have h1 := hall kv hkv
    cases hc : d.cols with
    | nil => rw [hc] at hkv; simp at hkv
    | cons c rest =>
      have hcmem : c ∈ d.cols := by rw [hc]; exact List.mem_cons_self _ _
      have h2 := hall c hcmem
      have hrc : d.rowCount = tuples.length := by
        have hcl : d.rowCount = c.2.length := by
          simp [DataFrame.rowCount, hc]
        rw [hcl, h2]
      simp [hrc, h1]

theorem mapEntry_ok_spec {g : Geom} {df : Option DataFrame} {a : Aesthetics}
    {kv : String × String} {b : String × Series}
    (h : g.mapEntry df a kv = .ok b) :
    b.1 = kv.2 ∧ ∃ d col, effDf g df = Option.some d ∧
      dictLookup d.cols (aesGet (effAes g a) kv.1) = Option.some col ∧
      b.2.length = col.length ∧
      (((g.isBoxpoint && (kv.1 == "stack")) = true ∧ b.2 = col) ∨
        checkTypeFor g col = .ok b.2) := by
  unfold Geom.mapEntry at h
  cases hdf : effDf g df with
  | none => rw [hdf] at h; simp [Bind.bind, Except.bind] at h
  | some d =>
    rw [hdf] at h
    simp only [Bind.bind, Except.bind] at h
    cases hcol : d.getCol (aesGet (effAes g a) kv.1) with
    | error e => rw [hcol] at h; simp at h
    | ok col =>
      rw [hcol] at h
      by_cases hbox : (g.isBoxpoint && (kv.1 == "stack")) = true
      · simp only [hbox, if_true, ite_true] at h
        have hb : b = (kv.2, col) := by simpa [eq_comm] using h
        subst hb
        exact ⟨rfl, d, col, rfl, getCol_ok_lookup hcol, rfl, Or.inl ⟨hbox, rfl⟩⟩
      · simp only [hbox, Bool.false_eq_true, if_false, ite_false] at h
        cases hct : checkTypeFor g col with
        | error e => rw [hct] at h; simp at h
        | ok val =>
          rw [hct] at h
          have hb : b = (kv.2, val) := by simpa [eq_comm] using h
          subst hb
          exact ⟨rfl, d, col, rfl, getCol_ok_lookup hcol,
            checkTypeFor_ok_length hct, Or.inr hct⟩

theorem mapM_mapEntry_spec {g : Geom} {df : Option DataFrame} {a : Aesthetics} :
    ∀ {l : List (String × String)} {res : Dict Series},
      l.mapM (g.mapEntry df a) = .ok res →
      res.map Prod.fst = l.map Prod.snd ∧
        ∀ p ∈ res, ∃ kv ∈ l, g.mapEntry df a kv = .ok p := by
  intro l
  induction l with
  | nil =>
    intro res h
    rw [mapM_nil_ok_iff] at h
    subst h
    exact ⟨rfl, by intro p hp; simp at hp⟩
  | cons kv l ih =>
    intro res h
    rw [mapM_cons_ok_iff] at h
    rcases h with ⟨b, bs, hb, hbs, hr⟩
    subst hr
    rcases ih hbs with ⟨hkeys, hvals⟩
    constructor
    · simp only [List.map_cons, hkeys, List.cons.injEq]
      exact ⟨(mapEntry_ok_spec hb).1, trivial⟩
    · intro p hp
      rcases List.mem_cons.mp hp with heq | hmem
      · subst heq; exact ⟨kv, List.mem_cons_self _ _, hb⟩
      · rcases hvals p hmem with ⟨kv2, hkv2, hspec⟩
        exact ⟨kv2, List.mem_cons_of_mem _ hkv2, hspec⟩

theorem map_ok_entries {g : Geom} {df : Option DataFrame} {a : Aesthetics}
    {res : Dict Series} (h : Geom.map g df a = .ok res) :
    res.map Prod.fst =
      (g.mapping.filter (fun kv => dictMem (effAes g a) kv.1)).map Prod.snd
    ∧ ∀ p ∈ res, ∃ kv, kv ∈ g.mapping ∧ dictMem (effAes g a) kv.1 = true ∧
        g.mapEntry df a kv = .ok p := by
  unfold Geom.map at h
  by_cases hany : (!(g.mapping.any (fun kv => dictMem (effAes g a) kv.1))) = true
  · rw [if_pos hany] at h; simp at h
  · rw [if_neg hany] at h
    rcases mapM_mapEntry_spec h with ⟨hkeys, hvals⟩
    refine ⟨hkeys, ?_⟩
    intro p hp
    rcases hvals p hp with ⟨kv, hkv, hspec⟩
    rcases List.mem_filter.mp hkv with ⟨hmem, hpred⟩
    exact ⟨kv, hmem, hpred, hspec⟩

theorem map_no_overlap_error {g : Geom} {df : Option DataFrame} {a : Aesthetics}
    (h : (g.mapping.any (fun kv => dictMem (effAes g a) kv.1)) = false) :
    Geom.map g df a = .error (.assertionError "This geom requires its aes to be specified") := by
  unfold Geom.map
  rw [if_pos (by simp [h])]

theorem map_ok_df_some {g : Geom} {df : Option DataFrame} {a : Aesthetics}
    {res : Dict Series} (h : Geom.map g df a = .ok res) (hne : res ≠ []) :
    ∃ d, effDf g df = Option.some d := by
  rcases map_ok_entries h with ⟨_, hvals⟩
  cases hres : res with
  | nil => exact absurd hres hne
  | cons p rest =>
    rcases hvals p (by rw [hres]; exact List.mem_cons_self _ _) with ⟨kv, _, _, hspec⟩
    rcases mapEntry_ok_spec hspec with ⟨_, d, col, hdf, _⟩
    exact ⟨d, hdf⟩

theorem mkGeom_ok_spec {k : GeomKind} {df : Option DataFrame} {a : Option Aesthetics}
    {g : Geom} (h : mkGeom k df a = .ok g) :
    g.df = Option.none ∧ g.aes = a ∧ g.mapping = kindMapping k ∧
      g.check = kindCheck k ∧ g.isBoxpoint = kindIsBox k := by
  unfold mkGeom at h
  cases df with
  | some d => simp at h
  | none =>
    simp only [Option.isSome_none, Bool.false_eq_true, if_false, ite_false] at h
    cases a with
    | none =>
      have hg := Except.ok.inj h
      rw [← hg]
      exact ⟨rfl, rfl, rfl, rfl, rfl⟩
    | some ga =>
      dsimp only at h
      by_cases hall : (ga.all (fun kv =>
          kv.1 == "metabolite" || kv.1 == "reaction" ||
            dictMem (kindMapping k) kv.1)) = true
      · rw [if_pos (by simpa using hall)] at h
        have hg := Except.ok.inj h
        rw [← hg]
        exact ⟨rfl, rfl, rfl, rfl, rfl⟩
      · rw [if_neg (by simpa using hall)] at h
        simp at h

theorem add_simple {pd : PlotData} {g : Geom} (hdf : g.df = Option.none)
    (hown : ownAesNoIdentity g = true) :
    pd.add g = (Geom.map g (if metTargeted g then pd.df_met else pd.df_reac) pd.aes).bind
      (fun res => .ok { pd with plotting_data := dictUpdate pd.plotting_data res }) := by
  unfold PlotData.add
  by_cases hmt : metTargeted g = true
  · rw [if_pos hmt, if_pos hmt]
    cases hga : g.aes with
    | none =>
      cases hm : Geom.map g pd.df_met pd.aes with
      | error e => simp [Bind.bind, Except.bind, hm]
      | ok res => simp [Bind.bind, Except.bind, hm]
    | some ga =>
      have hnm : dictMem ga "metabolite" = false := by
        have hpair : (!(dictMem ga "metabolite") && !(dictMem ga "reaction")) = true := by
          unfold ownAesNoIdentity at hown
          rw [hga] at hown
          exact hown
        simpa using (Bool.and_eq_true_iff.mp hpair).1
      cases hm : Geom.map g pd.df_met pd.aes with
      | error e => simp [Bind.bind, Except.bind, hm, hnm]
      | ok res => simp [Bind.bind, Except.bind, hm, hnm]
  · rw [if_neg hmt, if_neg hmt]
    cases hga : g.aes with
    | none =>
      cases hm : Geom.map g pd.df_reac pd.aes with
      | error e => simp [Bind.bind, Except.bind, hm]
      | ok res => simp [Bind.bind, Except.bind, hm]
    | some ga =>
      have hnr : dictMem ga "reaction" = false := by
        have hpair : (!(dictMem ga "metabolite") && !(dictMem ga "reaction")) = true := by
          unfold ownAesNoIdentity at hown
          rw [hga] at hown
          exact hown
        simpa using (Bool.and_eq_true_iff.mp hpair).2
      cases hm : Geom.map g pd.df_reac pd.aes with
      | error e => simp [Bind.bind, Except.bind, hm, hnr]
      | ok res => simp [Bind.bind, Except.bind, hm, hnr]

theorem dictMem_true_exists {α : Type} {d : Dict α} {k : String}
    (h : dictMem d k = true) : ∃ v, (k, v) ∈ d := by
  unfold dictMem at h
  cases hl : dictLookup d k with
  | none => rw [hl] at h; simp at h
  | some v => exact ⟨v, dictLookup_mem hl⟩

theorem dictMem_false_ne {α : Type} {d : Dict α} {k : String}
    (h : dictMem d k = false) : ∀ kv ∈ d, kv.1 ≠ k := by
  intro kv hkv
  have := dictMem_false_no_key h kv hkv
  simpa using this

theorem dictUpdate_swap_lookup {α : Type} (P X Y : Dict α)
    (hdisj : ∀ kv ∈ X, ∀ kv2 ∈ Y, kv.1 ≠ kv2.1) (k : String) :
    dictLookup (dictUpdate (dictUpdate P X) Y) k =
      dictLookup (dictUpdate (dictUpdate P Y) X) k := by
  by_cases hx : dictMem X k = true
  · have hky : ∀ kv ∈ Y, kv.1 ≠ k := by
      rcases dictMem_true_exists hx with ⟨v, hv⟩
      intro kv hkv heq
      exact hdisj (k, v) hv kv hkv (by simpa using heq.symm)
    rw [dictLookup_update_not_mem hky]
    exact dictLookup_update_of_mem hx _ _
  · by_cases hy : dictMem Y k = true
    · have hkx : ∀ kv ∈ X, kv.1 ≠ k := dictMem_false_ne (by simpa using hx)
      rw [dictLookup_update_not_mem hkx (dictUpdate P Y)]
      exact dictLookup_update_of_mem hy _ _
    · have hkx : ∀ kv ∈ X, kv.1 ≠ k := dictMem_false_ne (by simpa using hx)
      have hky : ∀ kv ∈ Y, kv.1 ≠ k := dictMem_false_ne (by simpa using hy)
      rw [dictLookup_update_not_mem hky, dictLookup_update_not_mem hkx,
        dictLookup_update_not_mem hkx, dictLookup_update_not_mem hky]

/-! Lemmas about serialization: box-field flattening and NaN sanitization. -/

theorem foldl_append_bind {α β : Type} (f : α → List β) :
    ∀ (cs : List α) (a : List β),
      cs.foldl (fun acc x => acc ++ f x) a = a ++ cs.flatMap f := by
  intro cs
  induction cs with
  | nil => intro a; simp
  | cons c cs ih =>
    intro a
    simp only [List.foldl_cons, ih, List.flatMap_cons, List.append_assoc]

theorem flattenBox_eq_bind (cs : List Cell) (nv : Cell) :
    flattenBox cs nv = cs.flatMap (fun c => wrap_list_or_item c nv) := by
  unfold flattenBox
  simpa using foldl_append_bind (fun c => wrap_list_or_item c nv) cs []

theorem hasNan_list (vs : List Cell) :
    Cell.hasNan (.list vs) = vs.any Cell.hasNan := by
  show Cell.hasNan.goList vs = vs.any Cell.hasNan
  induction vs with
  | nil => rfl
  | cons v vs ih => simp [Cell.hasNan.goList, ih]

theorem replaceNanElem_numScalar {c : Cell} (h : c.isNumScalar = true) :
    ∃ v, replaceNanElem c = .ok v ∧ v.hasNan = false := by
  cases c with
  | int n => exact ⟨.int n, rfl, rfl⟩
  | real q => exact ⟨.real q, rfl, rfl⟩
  | nan => exact ⟨.str "NaN", rfl, rfl⟩
  | none => simp [Cell.isNumScalar] at h
  | str s => simp [Cell.isNumScalar] at h
  | list xs => simp [Cell.isNumScalar] at h

theorem mapM_replaceNan_numScalars {xs : List Cell}
    (h : xs.all Cell.isNumScalar = true) :
    ∃ vs, xs.mapM replaceNanElem = .ok vs ∧ vs.all (fun v => !v.hasNan) = true := by
  induction xs with
  | nil => exact ⟨[], rfl, rfl⟩
  | cons x xs ih =>
    rw [List.all_cons, Bool.and_eq_true_iff] at h
    rcases replaceNanElem_numScalar h.1 with ⟨v, hv, hvn⟩
    rcases ih h.2 with ⟨vs, hvs, hvsn⟩
    refine ⟨v :: vs, ?_, ?_⟩
    · rw [mapM_cons_ok_iff]
      exact ⟨v, vs, hv, hvs, rfl⟩
    · simp [hvn, hvsn]

theorem sanitize_depth1_ok {c : Cell} (h : depth1NumOk c = true) :
    ∃ v, sanitizeCell c = .ok v ∧ v.hasNan = false := by
  cases c with
  | list xs =>
    have hall : xs.all Cell.isNumScalar = true := by simpa [depth1NumOk] using h
    rcases mapM_replaceNan_numScalars hall with ⟨vs, hvs, hvsn⟩
    refine ⟨.list vs, ?_, ?_⟩
    · show (xs.mapM replaceNanElem).map Cell.list = .ok (.list vs)
      rw [hvs]
      rfl
    · rw [hasNan_list]
      rw [List.all_eq_true] at hvsn
      rw [List.any_eq_false]
      intro v hv
      simpa using hvsn v hv
  | int n => exact ⟨.int n, rfl, rfl⟩
  | real q => exact ⟨.real q, rfl, rfl⟩
  | nan => exact ⟨.str "NaN", rfl, rfl⟩
  | none => simp [depth1NumOk, Cell.isNumScalar] at h
  | str s => simp [depth1NumOk, Cell.isNumScalar] at h

theorem mapM_sanitize_depth1 {cs : List Cell} (h : cs.all depth1NumOk = true) :
    ∃ vs, cs.mapM sanitizeCell = .ok vs ∧ vs.all (fun v => !v.hasNan) = true := by
  induction cs with
  | nil => exact ⟨[], rfl, rfl⟩
  | cons c cs ih =>
    rw [List.all_cons, Bool.and_eq_true_iff] at h
    rcases sanitize_depth1_ok h.1 with ⟨v, hv, hvn⟩
    rcases ih h.2 with ⟨vs, hvs, hvsn⟩
    refine ⟨v :: vs, ?_, ?_⟩
    · rw [mapM_cons_ok_iff]
      exact ⟨v, vs, hv, hvs, rfl⟩
    · simp [hvn, hvsn]

theorem wrap_shape {c : Cell} (nv : Cell) (hnv : nv.isNumScalar = true)
    (h : depth1NumOk c = true) :
    (wrap_list_or_item c nv).all Cell.isNumScalar = true := by
  cases c with
  | list xs =>
    have hall : xs.all Cell.isNumScalar = true := by simpa [depth1NumOk] using h
    unfold wrap_list_or_item
    by_cases hnull : xs.all not_null = true
    · simpa [hnull] using hall
    · simp only [hnull, Bool.false_eq_true, if_false, ite_false]
      simp [hnv]
  | int n => simp [wrap_list_or_item, Cell.isNumScalar]
  | real q => simp [wrap_list_or_item, Cell.isNumScalar]
  | nan => simp [wrap_list_or_item, Cell.isNumScalar]
  | none => simp [depth1NumOk, Cell.isNumScalar] at h
  | str s => simp [depth1NumOk, Cell.isNumScalar] at h

theorem flattenBox_shape {cs : List Cell} (nv : Cell) (hnv : nv.isNumScalar = true)
    (h : cs.all depth1NumOk = true) :
    (flattenBox cs nv).all Cell.isNumScalar = true := by
  rw [flattenBox_eq_bind]
  induction cs with
  | nil => rfl
  | cons c cs ih =>
    rw [List.all_cons, Bool.and_eq_true_iff] at h
    rw [List.flatMap_cons, List.all_append]
    simp [wrap_shape nv hnv h.1, ih h.2]

theorem numScalar_depth1 {c : Cell} (h : c.isNumScalar = true) : depth1NumOk c = true := by
  cases c <;> simp_all [Cell.isNumScalar, depth1NumOk]

theorem mapM_sanitize_id_of_num {xs : List Cell} (h : xs.all Cell.isNum = true) :
    xs.mapM sanitizeCell = .ok xs := by
  induction xs with
  | nil => rfl
  | cons x xs ih =>
    rw [List.all_cons, Bool.and_eq_true_iff] at h
    rw [mapM_cons_ok_iff]
    refine ⟨x, xs, ?_, ih h.2, rfl⟩
    cases x with
    | int n => rfl
    | real q => rfl
    | nan => simp [Cell.isNum] at h
    | none => simp [Cell.isNum] at h
    | str s => simp [Cell.isNum] at h
    | list ys => simp [Cell.isNum] at h

theorem c2_row_sanitize {c : Cell} (h : boxCellOk c = true) :
    (wrap_list_or_item c Cell.nan).mapM sanitizeCell = .ok (boxRowAllOrNothing c) := by
  cases c with
  | list xs =>
    by_cases hnull : xs.all not_null = true
    · have hxall : ∀ x ∈ xs, (x.isNumScalar || x.isMissing) = true := by
        have hb : xs.all (fun x => x.isNumScalar || x.isMissing) = true := by
          simpa [boxCellOk] using h
        exact List.all_eq_true.mp hb
      have hnullall := List.all_eq_true.mp hnull
      have hnum : xs.all Cell.isNum = true := by
        rw [List.all_eq_true]
        intro x hx
        have h1 := hxall x hx
        have h2 := hnullall x hx
        cases x <;> simp_all [Cell.isNumScalar, Cell.isMissing, not_null, Cell.isNum]
      simp only [wrap_list_or_item, boxRowAllOrNothing, hnull, if_true, ite_true]
      exact mapM_sanitize_id_of_num hnum
    · simp only [wrap_list_or_item, boxRowAllOrNothing, hnull, Bool.false_eq_true,
        if_false, ite_false]
      rfl
  | int n => simp [boxCellOk] at h
  | real q => simp [boxCellOk] at h
  | nan => simp [boxCellOk] at h
  | none => simp [boxCellOk] at h
  | str s => simp [boxCellOk] at h

theorem c2_rows_sanitize {cs : List Cell} (h : cs.all boxCellOk = true) :
    (cs.flatMap (fun c => wrap_list_or_item c Cell.nan)).mapM sanitizeCell =
      .ok (cs.flatMap boxRowAllOrNothing) := by
  induction cs with
  | nil => rfl
  | cons c cs ih =>
    rw [List.all_cons, Bool.and_eq_true_iff] at h
    rw [List.flatMap_cons, List.flatMap_cons, List.mapM_append,
      c2_row_sanitize h.1, ih h.2]
    simp [Bind.bind, Except.bind, pure, Except.pure]

theorem toDict_box_y_single (cs : List Cell) :
    toDict [("box_y", cs)] =
      ((flattenBox cs Cell.nan).mapM sanitizeCell).map (fun vs => [(("box_y" : String), vs)]) := by
  show ([(("box_y" : String), flattenBox cs Cell.nan)].mapM sanitizeEntry) = _
  have hid : ¬(("box_y" : String) ∈ identityFields) := by decide
  rw [List.mapM_cons]
  cases hs : (flattenBox cs Cell.nan).mapM sanitizeCell with
  | error e =>
    have hentry : sanitizeEntry ("box_y", flattenBox cs Cell.nan) =
        (Except.error e : Except PyErr (String × List Cell)) := by
      rw [sanitizeEntry, if_neg (by simpa using hid)]
      show ((flattenBox cs Cell.nan).mapM sanitizeCell).bind _ = _
      rw [hs]
      rfl
    rw [hentry]
    rfl
  | ok vs =>
    have hentry : sanitizeEntry ("box_y", flattenBox cs Cell.nan) =
        .ok ("box_y", vs) := by
      rw [sanitizeEntry, if_neg (by simpa using hid)]
      show ((flattenBox cs Cell.nan).mapM sanitizeCell).bind _ = _
      rw [hs]
      rfl
    rw [hentry]
    rfl

theorem toDict_box_left_y_single (cs : List Cell) :
    toDict [("box_left_y", cs)] =
      ((flattenBox cs Cell.nan).mapM sanitizeCell).map
        (fun vs => [(("box_left_y" : String), vs)]) := by
  show ([(("box_left_y" : String), flattenBox cs Cell.nan)].mapM sanitizeEntry) = _
  have hid : ¬(("box_left_y" : String) ∈ identityFields) := by decide
  rw [List.mapM_cons]
  cases hs : (flattenBox cs Cell.nan).mapM sanitizeCell with
  | error e =>
    have hentry : sanitizeEntry ("box_left_y", flattenBox cs Cell.nan) =
        (Except.error e : Except PyErr (String × List Cell)) := by
      rw [sanitizeEntry, if_neg (by simpa using hid)]
      show ((flattenBox cs Cell.nan).mapM sanitizeCell).bind _ = _
      rw [hs]
      rfl
    rw [hentry]
    rfl
  | ok vs =>
    have hentry : sanitizeEntry ("box_left_y", flattenBox cs Cell.nan) =
        .ok ("box_left_y", vs) := by
      rw [sanitizeEntry, if_neg (by simpa using hid)]
      show ((flattenBox cs Cell.nan).mapM sanitizeCell).bind _ = _
      rw [hs]
      rfl
    rw [hentry]
    rfl

theorem all_numScalar_depth1 {cs : List Cell} (h : cs.all Cell.isNumScalar = true) :
    cs.all depth1NumOk = true := by
  rw [List.all_eq_true] at *
  intro c hc
  exact numScalar_depth1 (h c hc)

theorem flattenStep_preserves (d : Dict (List Cell)) (vAes : String)
    (hva : identityFields.contains vAes = true ∨ strContains vAes "y" = true)
    (hinv : ∀ kv ∈ d, identityFields.contains kv.1 = false →
      kv.2.all depth1NumOk = true) :
    ∀ kv ∈ flattenStep d vAes,
      identityFields.contains kv.1 = false → kv.2.all depth1NumOk = true := by
  unfold flattenStep
  by_cases hm : dictMem d vAes = true
  · rw [if_pos hm]
    intro kv hkv hident
    rcases mem_dictSet hkv with heq | ⟨hmem, _⟩
    · subst heq
      rcases hva with hva | hva
      · rw [hva] at hident; cases hident
      · rw [hva]
        simp only [if_true, ite_true]
        cases hl : dictLookup d vAes with
        | none => simp [dictMem, hl] at hm
        | some v =>
          have hv : v.all depth1NumOk = true :=
            hinv (vAes, v) (dictLookup_mem hl) hident
          simp only [hl, Option.getD_some]
          exact all_numScalar_depth1 (flattenBox_shape Cell.nan rfl hv)
    · exact hinv kv hmem hident
  · rw [if_neg hm]
    exact hinv

theorem toDict_final_mapM (d : Dict (List Cell))
    (hinv : ∀ kv ∈ d, identityFields.contains kv.1 = false →
      kv.2.all depth1NumOk = true) :
    ∃ out, d.mapM sanitizeEntry = .ok out ∧
      ∀ kv ∈ out, identityFields.contains kv.1 = false →
        kv.2.all (fun c => !c.hasNan) = true := by
  induction d with
  | nil => exact ⟨[], rfl, by intro kv h; simp at h⟩
  | cons kv rest ih =>
    have hrest : ∀ kv2 ∈ rest, identityFields.contains kv2.1 = false →
        kv2.2.all depth1NumOk = true :=
      fun kv2 h2 => hinv kv2 (List.mem_cons_of_mem _ h2)
    rcases ih hrest with ⟨out, hout, hprop⟩
    by_cases hc : identityFields.contains kv.1 = true
    · refine ⟨kv :: out, ?_, ?_⟩
      · rw [mapM_cons_ok_iff]
        exact ⟨kv, out, by rw [sanitizeEntry, if_pos hc], hout, rfl⟩
      · intro kv2 hkv2 hident
        rcases List.mem_cons.mp hkv2 with heq | hmem
        · subst heq; rw [hc] at hident; cases hident
        · exact hprop kv2 hmem hident
    · have hc2 : identityFields.contains kv.1 = false := by simpa using hc
      have hdep : kv.2.all depth1NumOk = true :=
        hinv kv (List.mem_cons_self _ _) hc2
      rcases mapM_sanitize_depth1 hdep with ⟨vs, hvs, hvsn⟩
      refine ⟨(kv.1, vs) :: out, ?_, ?_⟩
      · rw [mapM_cons_ok_iff]
        refine ⟨(kv.1, vs), out, ?_, hout, rfl⟩
        rw [sanitizeEntry, if_neg hc]
        show (kv.2.mapM sanitizeCell).bind (fun vs => Except.ok (kv.1, vs)) = _
        rw [hvs]
        rfl
      · intro kv2 hkv2 hident
        rcases List.mem_cons.mp hkv2 with heq | hmem
        · subst heq; exact hvsn
        · exact hprop kv2 hmem hident

theorem mapM_map_of_pointwise {α β : Type} {f : α → Except PyErr β} {g : α → β} :
    ∀ {l : List α}, (∀ c ∈ l, f c = .ok (g c)) → l.mapM f = .ok (l.map g) := by
  intro l
  induction l with
  | nil => intro _; rfl
  | cons c cs ih =>
    intro h
    rw [mapM_cons_ok_iff]
    exact ⟨g c, cs.map g, h c (List.mem_cons_self _ _),
      ih (fun x hx => h x (List.mem_cons_of_mem _ hx)), rfl⟩

theorem npMean_c7 {c : Cell} (h : c7CellOk c = true) :
    npMean c = .ok (.real (arithMeanSpec c.elems)) := by
  cases c with
  | list xs =>
    cases xs with
    | nil => simp [c7CellOk] at h
    | cons x rest =>
      have hall : (x :: rest).all Cell.isNum = true := by simpa [c7CellOk] using h
      have hscal : (x :: rest).all Cell.isNumScalar = true := by
        rw [List.all_eq_true] at *
        intro y hy
        have := hall y hy
        cases y <;> simp_all [Cell.isNum, Cell.isNumScalar]
      have hnomiss : ((x :: rest).any (fun c => c.isMissing)) = false := by
        rw [List.any_eq_false]
        intro y hy
        have := (List.all_eq_true.mp hall) y hy
        cases y <;> simp_all [Cell.isNum, Cell.isMissing]
      unfold npMean
      dsimp only
      rw [if_pos hscal]
      rw [if_neg (by simp), if_neg (by simp [hnomiss])]
      rfl
  | int n => simp [c7CellOk] at h
  | real q => simp [c7CellOk] at h
  | nan => simp [c7CellOk] at h
  | none => simp [c7CellOk] at h
  | str s => simp [c7CellOk] at h

theorem checkTypeScalar_means {s : Series} (h : s.all c7CellOk = true) :
    checkTypeScalar s = .ok (s.map (fun c => Cell.real (arithMeanSpec c.elems))) := by
  cases s with
  | nil => rfl
  | cons c cs =>
    have hc : c7CellOk c = true := by
      have h2 := h
      rw [List.all_cons, Bool.and_eq_true_iff] at h2
      exact h2.1
    have hobj : seriesDtype (c :: cs) = Dtype.obj := by
      cases c <;> simp_all [c7CellOk, seriesDtype, Cell.isInt, Cell.isNumScalar,
        List.all_cons]
    have happ : seriesApply npMean (c :: cs) =
        .ok ((c :: cs).map (fun c => Cell.real (arithMeanSpec c.elems))) := by
      apply mapM_map_of_pointwise
      intro x hx
      exact npMean_c7 ((List.all_eq_true.mp h) x hx)
    have hfl : seriesDtype ((c :: cs).map (fun c => Cell.real (arithMeanSpec c.elems))) =
        Dtype.floatK := by
      have hallns : (((c :: cs).map (fun c => Cell.real (arithMeanSpec c.elems))).all
          Cell.isNumScalar) = true := by
        rw [List.all_eq_true]
        intro z hz
        rcases List.mem_map.mp hz with ⟨c3, _, hc3⟩
        rw [← hc3]
        rfl
      unfold seriesDtype
      rw [if_neg (by simp), if_neg (by simp [Cell.isInt]), if_pos hallns]
    unfold checkTypeScalar
    rw [if_pos hobj]
    show (seriesApply npMean (c :: cs)).bind _ = _
    rw [happ]
    simp only [List.map_cons] at hfl
    simp [Bind.bind, Except.bind, hfl]

theorem add_eq_addNoBound {pd : PlotData} {g : Geom} (h : g.df = Option.none) :
    pd.add g = pd.addNoBound g := by
  unfold PlotData.add PlotData.addNoBound
  have hnone : g.df.isNone = true := by rw [h]; rfl
  by_cases hmt : metTargeted g = true
  · rw [if_pos hmt, if_pos hmt]
    cases hga : g.aes with
    | none => rfl
    | some ga =>
      by_cases hm : dictMem ga "metabolite" = true
      · simp [hm, hnone]
      · simp [hm, hnone]
  · rw [if_neg hmt, if_neg hmt]
    cases hga : g.aes with
    | none => rfl
    | some ga =>
      by_cases hm : dictMem ga "reaction" = true
      · simp [hm, hnone]
      · simp [hm, hnone]

/-! The claims. -/

/-- C10: for every call to the aesthetic constructor aes, the returned
mapping's entries are exactly the enumerated keyword roles supplied with a
non-None value, each mapped to the supplied column name; absent or None roles
do not appear as keys. -/
theorem c10_aes_role_set
    (reaction metabolite condition y color size stack ymin ymax : Option String)
    (role col : String) :
    (role, col) ∈ aes reaction metabolite condition y color size stack ymin ymax ↔
      ((role = "reaction" ∧ reaction = Option.some col) ∨
       (role = "metabolite" ∧ metabolite = Option.some col) ∨
       (role = "condition" ∧ condition = Option.some col) ∨
       (role = "y" ∧ y = Option.some col) ∨
       (role = "ymin" ∧ ymin = Option.some col) ∨
       (role = "ymax" ∧ ymax = Option.some col) ∨
       (role = "color" ∧ color = Option.some col) ∨
       (role = "size" ∧ size = Option.some col) ∨
       (role = "stack" ∧ stack = Option.some col)) := by
  simp only [aes, List.mem_filterMap, List.mem_cons, List.not_mem_nil, or_false,
    Option.map_eq_some']
  constructor
  · rintro ⟨kv, hkv, v, hv, heq⟩
    have hfst : kv.1 = role := congrArg Prod.fst heq
    have hsnd : v = col := congrArg Prod.snd heq
    subst hsnd
    rcases hkv with rfl | rfl | rfl | rfl | rfl | rfl | rfl | rfl | rfl <;>
      simp_all
  · intro hcase
    rcases hcase with ⟨hr, hv⟩ | ⟨hr, hv⟩ | ⟨hr, hv⟩ | ⟨hr, hv⟩ | ⟨hr, hv⟩ |
      ⟨hr, hv⟩ | ⟨hr, hv⟩ | ⟨hr, hv⟩ | ⟨hr, hv⟩ <;> subst hr
    · exact ⟨("reaction", reaction), by simp, col, hv, rfl⟩
    · exact ⟨("metabolite", metabolite), by simp, col, hv, rfl⟩
    · exact ⟨("condition", condition), by simp, col, hv, rfl⟩
    · exact ⟨("y", y), by simp, col, hv, rfl⟩
    · exact ⟨("ymin", ymin), by simp, col, hv, rfl⟩
    · exact ⟨("ymax", ymax), by simp, col, hv, rfl⟩
    · exact ⟨("color", color), by simp, col, hv, rfl⟩
    · exact ⟨("size", size), by simp, col, hv, rfl⟩
    · exact ⟨("stack", stack), by simp, col, hv, rfl⟩

/-- C9: construction of a geom with its own bound aesthetics succeeds exactly
when every role in that aesthetics is metabolite, reaction, or a key of the
variant's mapping (post_init's assertion); in particular geom_metabolite with
aes(metabolite="m", condition="flux", color="conc") is rejected at
construction time, since condition is a key of no variant mapping. -/
theorem c9_geom_own_aes_validation :
    (∀ (k : GeomKind) (ga : Aesthetics),
        exceptIsOk (mkGeom k Option.none (Option.some ga)) = true ↔
          ga.all (fun kv => kv.1 == "metabolite" || kv.1 == "reaction" ||
            dictMem (kindMapping k) kv.1) = true)
    ∧ isAssertionErr (mkGeom .metabolite Option.none (Option.some
        (aes Option.none (Option.some "m") (Option.some "flux") Option.none
          (Option.some "conc") Option.none Option.none Option.none
          Option.none))) = true := by
  constructor
  · intro k ga
    unfold mkGeom
    dsimp only [Option.isSome_none, Bool.false_eq_true, if_false]
    by_cases hall : (ga.all (fun kv => kv.1 == "metabolite" || kv.1 == "reaction" ||
        dictMem (kindMapping k) kv.1)) = true
    · rw [if_pos hall]
      simp [exceptIsOk, hall]
    · rw [if_neg hall]
      simp only [exceptIsOk]
      constructor
      · intro hfalse; cases hfalse
      · intro h2; exact absurd h2 hall
  · rfl

/-- C5: Geom construction with a bound dataframe always raises (the guard
calls the non-callable NotImplemented singleton, a TypeError), every
successfully constructed geom therefore has df = None, and for such a geom
__add__ agrees with addNoBound, the variant of __add__ whose bound-table
branches (reading other.df) are removed - those branches are unreachable. -/
theorem c5_constructed_geoms_unbound :
    (∀ (k : GeomKind) (d : DataFrame) (a : Option Aesthetics),
        mkGeom k (Option.some d) a =
          .error (.typeError "NotImplementedType object is not callable"))
    ∧ (∀ (k : GeomKind) (a : Option Aesthetics) (g : Geom),
        mkGeom k Option.none a = .ok g → g.df = Option.none)
    ∧ (∀ (pd : PlotData) (g : Geom), g.df = Option.none →
        pd.add g = pd.addNoBound g) := by
  refine ⟨?_, ?_, ?_⟩
  · intro k d a; rfl
  · intro k a g h; exact (mkGeom_ok_spec h).1
  · intro pd g h; exact add_eq_addNoBound h

/-- C5 witness: a concretely constructed geom has no bound frame, and adding
a constructed geom to a concrete PlotData equals the no-bound-branch variant. -/
theorem c5_witness :
    (exceptGetD (mkGeom .arrow Option.none Option.none) geomFallback).df = Option.none
    ∧ c1wPd.add c5Geom = c1wPd.addNoBound c5Geom :=
  ⟨c5_constructed_geoms_unbound.2.1 .arrow Option.none _ (by rfl),
   c5_constructed_geoms_unbound.2.2 c1wPd c5Geom (by rfl)⟩

/-- C3 (amended): GeomHist and GeomKde use the inherited distribution check,
and that check inspects only the first cell: it succeeds, returning the data
unchanged, exactly when the column has object dtype, its first cell is a
list, and that list's first element is an int or a float (NaN included);
later cells and later elements are not inspected. -/
theorem c3_dist_check_first_cell (s t : Series) :
    (kindCheck (.hist "right" false) = CheckKind.dist ∧
      kindCheck (.kde "right" true) = CheckKind.dist ∧
      kindCheck (.arrow) = CheckKind.scalar)
    ∧ (checkTypeDist s = .ok t ↔
        (t = s ∧ seriesDtype s = .obj ∧ firstCellDistOk s = true)) :=
  ⟨⟨rfl, rfl, rfl⟩, checkTypeDist_ok_iff s t⟩

/-- C3 counterexample: the distribution check accepts a column whose second
cell is not a list and whose first cell contains a non-numeric element, so
resolution does not fail for every malformed cell as the claim states. -/
theorem c3_counterexample :
    checkTypeDist [Cell.list [Cell.real 1, Cell.str "x"], Cell.str "foo"] =
      .ok [Cell.list [Cell.real 1, Cell.str "x"], Cell.str "foo"]
    ∧ Cell.isList (Cell.str "foo") = false
    ∧ Cell.isNum (Cell.str "x") = false :=
  ⟨rfl, rfl, rfl⟩

/-- C7: the scalar check coerces a column of nonempty numeric lists cell-wise
to the arithmetic mean of the list, succeeding; and on the spec's concrete
scenario (r=["a","a","b"], flux=[1,2,3], aes(reaction="r", color="flux"),
geom_arrow) the reaction GroupedTable has 2 rows "a" and "b" and the colors
output is [1.5, 3.0]. -/
theorem c7_scalar_mean :
    (∀ s : Series, s.all c7CellOk = true →
        checkTypeScalar s = .ok (s.map (fun c => Cell.real (arithMeanSpec c.elems))))
    ∧ c7Chain.map (fun p => (p.df_reac.map DataFrame.rowCount,
        dictLookup p.plotting_data "reactions", dictLookup p.plotting_data "colors")) =
      .ok (Option.some 2, Option.some [Cell.str "a", Cell.str "b"],
        Option.some [Cell.real 1.5, Cell.real 3]) := by
  constructor
  · intro s h; exact checkTypeScalar_means h
  · with_unfolding_all rfl

/-- C7 witness: the general coercion statement applied to a concrete
two-cell list column. -/
theorem c7_witness :
    ([Cell.list [Cell.int 1, Cell.int 2], Cell.list [Cell.int 3]].all c7CellOk = true)
    ∧ checkTypeScalar [Cell.list [Cell.int 1, Cell.int 2], Cell.list [Cell.int 3]] =
      .ok ([Cell.list [Cell.int 1, Cell.int 2], Cell.list [Cell.int 3]].map
        (fun c => Cell.real (arithMeanSpec c.elems))) :=
  ⟨rfl, c7_scalar_mean.1 _ (by rfl)⟩

/-- C6: Geom.map fails with the no-overlapping-role assertion when no mapping
role occurs in the effective aesthetics; when it returns a mapping, its key
list is exactly the mapping's shu variables for the roles present in the
effective aesthetics (in mapping order), and each value is the type-checked
column named by the effective aesthetics for that role, extracted from the
effective table (the stack role of a box-point geometry passing through
unchecked). -/
theorem c6_map_key_set (g : Geom) (df : Option DataFrame) (a : Aesthetics) :
    ((g.mapping.any (fun kv => dictMem (effAes g a) kv.1)) = false →
      Geom.map g df a =
        .error (.assertionError "This geom requires its aes to be specified"))
    ∧ (∀ res, Geom.map g df a = .ok res →
        res.map Prod.fst =
          (g.mapping.filter (fun kv => dictMem (effAes g a) kv.1)).map Prod.snd
        ∧ ∀ p ∈ res, ∃ kv, kv ∈ g.mapping ∧ dictMem (effAes g a) kv.1 = true ∧
            p.1 = kv.2 ∧ ∃ d col, effDf g df = Option.some d ∧
              dictLookup d.cols (aesGet (effAes g a) kv.1) = Option.some col ∧
              (((g.isBoxpoint && (kv.1 == "stack")) = true ∧ p.2 = col) ∨
                checkTypeFor g col = .ok p.2)) := by
  constructor
  · exact map_no_overlap_error
  · intro res h
    rcases map_ok_entries h with ⟨hkeys, hvals⟩
    refine ⟨hkeys, ?_⟩
    intro p hp
    rcases hvals p hp with ⟨kv, hkv, hmem, hspec⟩
    rcases mapEntry_ok_spec hspec with ⟨h1, d, col, hdf, hcol, _, hcheck⟩
    exact ⟨kv, hkv, hmem, h1, d, col, hdf, hcol, hcheck⟩

/-- C6 witness: geom_arrow resolved against aes(y="kcat") fails with the
assertion, and resolved against aes(color="flux") yields exactly the key
list ["colors"]. -/
theorem c6_witness :
    Geom.map c6Geom Option.none c6AesErr =
      .error (.assertionError "This geom requires its aes to be specified")
    ∧ c6Res.map Prod.fst =
      (c6Geom.mapping.filter (fun kv => dictMem (effAes c6Geom c6AesOk) kv.1)).map
        Prod.snd :=
  ⟨(c6_map_key_set c6Geom Option.none c6AesErr).1 (by rfl),
   ((c6_map_key_set c6Geom (Option.some c6Df) c6AesOk).2 c6Res (by rfl)).1⟩

/-- C2: serialization applies the per-row all-or-nothing rule to box_y and
box_left_y: a list cell with a missing element is replaced by the
single-element sentinel list ([NaN] at the wrap step, the serialized sentinel
after the generic pass), a list of non-missing elements is kept; in
particular the grouped cell [1.0, null, 2.0] serializes to the sentinel
singleton for that row and never to the mixed list [1.0, "NaN", 2.0]. -/
theorem c2_box_all_or_nothing :
    (∀ (xs : List Cell) (nv : Cell),
        (xs.all not_null = false → wrap_list_or_item (.list xs) nv = [nv]) ∧
        (xs.all not_null = true → wrap_list_or_item (.list xs) nv = xs))
    ∧ (∀ (k : String) (cs : List Cell), (k = "box_y" ∨ k = "box_left_y") →
        cs.all boxCellOk = true →
        toDict [(k, cs)] = .ok [(k, cs.flatMap boxRowAllOrNothing)])
    ∧ (wrap_list_or_item (.list [.real 1, .none, .real 2]) Cell.nan = [Cell.nan]
       ∧ toDict [("box_y", [.list [.real 1, .none, .real 2]])] =
           .ok [("box_y", [Cell.str "NaN"])]
       ∧ [Cell.str "NaN"] ≠ [Cell.real 1, Cell.str "NaN", Cell.real 2]) := by
  refine ⟨?_, ?_, ?_, ?_, ?_⟩
  · intro xs nv
    constructor
    · intro h; simp [wrap_list_or_item, h]
    · intro h; simp [wrap_list_or_item, h]
  · intro k cs hk hcells
    rcases hk with rfl | rfl
    · rw [toDict_box_y_single, flattenBox_eq_bind, c2_rows_sanitize hcells]; rfl
    · rw [toDict_box_left_y_single, flattenBox_eq_bind, c2_rows_sanitize hcells]; rfl
  · rfl
  · rfl
  · simp

/-- C2 witness: the per-row rule applied to a concrete three-row box column
(one fully numeric row kept, one row with None and one row with NaN each
collapsed to the sentinel). -/
theorem c2_witness :
    (c2wCells.all boxCellOk = true)
    ∧ toDict [("box_y", c2wCells)] =
        .ok [("box_y", c2wCells.flatMap boxRowAllOrNothing)] :=
  ⟨rfl, c2_box_all_or_nothing.2.1 "box_y" c2wCells (Or.inl rfl) (by rfl)⟩

/-- C4 counterexample: a non-identity field holding a missing numeric nested
two levels deep makes to_dict raise TypeError (math.isnan applied to a list)
instead of replacing it with the string sentinel, so the claim's "at any
nesting depth" fails on the code. -/
theorem c4_counterexample :
    toDict [("colors", [Cell.list [Cell.list [Cell.nan]]])] =
      .error (.typeError "must be real number, not NoneType")
    ∧ Cell.hasNan (Cell.list [Cell.list [Cell.nan]]) = true
    ∧ identityFields.contains "colors" = false :=
  ⟨rfl, rfl, rfl⟩

/-- C4 (amended): when every non-identity field holds only numeric scalars or
flat lists of numeric scalars (missing numerics no deeper than one list
level), to_dict succeeds and every non-identity output field contains no raw
float NaN at any depth - each missing numeric was replaced by the string
sentinel. -/
theorem c4_sanitize_depth1 (pdata : Dict Series)
    (hall : (pdata.all (fun kv =>
      identityFields.contains kv.1 || kv.2.all depth1NumOk)) = true) :
    exceptIsOk (toDict pdata) = true
    ∧ ∀ d, toDict pdata = .ok d →
        ∀ kv ∈ d, identityFields.contains kv.1 = false →
          kv.2.all (fun c => !c.hasNan) = true := by
  have hinv0 : ∀ kv ∈ pdata, identityFields.contains kv.1 = false →
      kv.2.all depth1NumOk = true := by
    intro kv hkv hfalse
    have hor := (List.all_eq_true.mp hall) kv hkv
    rcases Bool.or_eq_true_iff.mp hor with h | h
    · rw [hfalse] at h; cases h
    · exact h
  have hmapid : pdata.map (fun kv => (kv.1, kv.2)) = pdata := by simp
  have htd : toDict pdata = (toFlatten.foldl flattenStep pdata).mapM sanitizeEntry := by
    simp only [toDict]
    rw [hmapid]
  have hfold : toFlatten.foldl flattenStep pdata =
      flattenStep (flattenStep (flattenStep (flattenStep pdata "box_y")
        "box_left_y") "box_variant") "box_left_variant" := rfl
  have hinv1 := flattenStep_preserves pdata "box_y" (Or.inr (by decide)) hinv0
  have hinv2 := flattenStep_preserves _ "box_left_y" (Or.inr (by decide)) hinv1
  have hinv3 := flattenStep_preserves _ "box_variant" (Or.inl (by decide)) hinv2
  have hinv4 := flattenStep_preserves _ "box_left_variant" (Or.inl (by decide)) hinv3
  have hinvFold : ∀ kv ∈ toFlatten.foldl flattenStep pdata,
      identityFields.contains kv.1 = false → kv.2.all depth1NumOk = true := by
    rw [hfold]
    exact hinv4
  rcases toDict_final_mapM _ hinvFold with ⟨out, hout, hprop⟩
  constructor
  · rw [htd, hout]; rfl
  · intro d hd
    rw [htd, hout] at hd
    have hdout : out = d := Except.ok.inj hd
    rw [← hdout]
    exact hprop

/-- C4 witness: the amended sanitization statement applied to a concrete map
with missing numerics at depth 0 and depth 1 next to an identity field. -/
theorem c4_witness :
    (c4wPdata.all (fun kv =>
      identityFields.contains kv.1 || kv.2.all depth1NumOk)) = true
    ∧ exceptIsOk (toDict c4wPdata) = true
    ∧ (("colors" : String), [Cell.str "NaN", Cell.list [Cell.int 1, Cell.str "NaN"]]) ∈ c4wOut
    ∧ ([Cell.str "NaN", Cell.list [Cell.int 1, Cell.str "NaN"]].all
        (fun c => !c.hasNan)) = true := by
  refine ⟨rfl, (c4_sanitize_depth1 c4wPdata rfl).1, ?hmem, ?_⟩
  case hmem =>
    show _ ∈ c4wOut
    exact List.mem_cons_self _ _
  · exact (c4_sanitize_depth1 c4wPdata rfl).2 c4wOut (by rfl) _
      (List.mem_cons_self _ _) rfl

/-- C8 counterexample: geom_metabolite with its own metabolite aesthetics
(fields met_colors/met_sizes) and geom_hist(mets=True) (field met_y) have
disjoint output fields, yet composing them in the two orders produces output
maps that differ at met_y (2 rows versus 1 row), because the first geom
re-derives the metabolite grouping that the second one resolves against. -/
theorem c8_counterexample :
    ((kindMapping .metabolite).all (fun kv =>
      !((kindMapping (.hist "right" true)).any (fun kv2 => kv2.2 == kv.2)))) = true
    ∧ c8AB.map (fun p => (dictLookup p.plotting_data "met_y").map List.length) =
        .ok (Option.some 2)
    ∧ c8BA.map (fun p => (dictLookup p.plotting_data "met_y").map List.length) =
        .ok (Option.some 1)
    ∧ (2 : Nat) ≠ 1 := by
  refine ⟨rfl, ?_, ?_, by decide⟩
  · with_unfolding_all rfl
  · with_unfolding_all rfl

/-- C8 (amended): for geoms with no bound frame whose own aesthetics (if
any) declare neither metabolite nor reaction, composition in either order of
two geoms with disjoint output-field sets yields the same output map (as a
key-value map; the insertion order of fresh keys may differ). -/
theorem c8_disjoint_commute (pd : PlotData) (A B : Geom) (pd1 : PlotData)
    (hA : A.df = Option.none) (hB : B.df = Option.none)
    (hoA : ownAesNoIdentity A = true) (hoB : ownAesNoIdentity B = true)
    (hdisj : (A.mapping.all (fun kv =>
      !(B.mapping.any (fun kv2 => kv2.2 == kv.2)))) = true)
    (hAB : (pd.add A).bind (fun p => p.add B) = .ok pd1) :
    ∃ pd2, (pd.add B).bind (fun p => p.add A) = .ok pd2 ∧
      ∀ k, dictLookup pd1.plotting_data k = dictLookup pd2.plotting_data k := by
  rw [add_simple hA hoA] at hAB
  cases hmA : Geom.map A (if metTargeted A then pd.df_met else pd.df_reac) pd.aes with
  | error e => rw [hmA] at hAB; simp [Bind.bind, Except.bind] at hAB
  | ok resA =>
    rw [hmA] at hAB
    simp only [Bind.bind, Except.bind] at hAB
    rw [add_simple hB hoB] at hAB
    dsimp only at hAB
    cases hmB : Geom.map B (if metTargeted B then pd.df_met else pd.df_reac) pd.aes with
    | error e => rw [hmB] at hAB; simp [Bind.bind, Except.bind] at hAB
    | ok resB =>
      rw [hmB] at hAB
      simp only [Bind.bind, Except.bind] at hAB
      have hpd1 : pd1 = { pd with plotting_data := dictUpdate (dictUpdate pd.plotting_data resA) resB } := by
        exact (Except.ok.inj hAB).symm
      -- the reverse order
      have hstepB : pd.add B = .ok { pd with plotting_data := dictUpdate pd.plotting_data resB } := by
        rw [add_simple hB hoB, hmB]
        rfl
      have hstepA : ({ pd with plotting_data := dictUpdate pd.plotting_data resB } : PlotData).add A = .ok { pd with plotting_data := dictUpdate (dictUpdate pd.plotting_data resB) resA } := by
        rw [add_simple hA hoA]
        dsimp only
        rw [hmA]
        rfl
      refine ⟨{ pd with plotting_data := dictUpdate (dictUpdate pd.plotting_data resB) resA }, ?_, ?_⟩
      · rw [hstepB]
        simp only [Bind.bind, Except.bind]
        exact hstepA
      · intro k
        rw [hpd1]
        dsimp only
        apply dictUpdate_swap_lookup
        intro pa hpa pb hpb
        rcases (map_ok_entries hmA).2 pa hpa with ⟨kvA, hkvA, _, hspecA⟩
        rcases (map_ok_entries hmB).2 pb hpb with ⟨kvB, hkvB, _, hspecB⟩
        have h1 : pa.1 = kvA.2 := (mapEntry_ok_spec hspecA).1
        have h2 : pb.1 = kvB.2 := (mapEntry_ok_spec hspecB).1
        rw [h1, h2]
        have hnotany := (List.all_eq_true.mp hdisj) kvA hkvA
        have : (B.mapping.any (fun kv2 => kv2.2 == kvA.2)) = false := by
          simpa using hnotany
        have hne := (List.any_eq_false.mp this) kvB hkvB
        intro heq
        rw [heq] at hne
        simp at hne

/-- C8 witness: the commutation statement applied to geom_arrow and
geom_column over a concrete reaction-scoped PlotData, compared at the colors
field. -/
theorem c8_witness :
    ((c8wPd.add c8wGeomA).bind (fun p => p.add c8wGeomB)).map
        (fun p => dictLookup p.plotting_data "colors") =
      ((c8wPd.add c8wGeomB).bind (fun p => p.add c8wGeomA)).map
        (fun p => dictLookup p.plotting_data "colors") := by
  obtain ⟨pd2, h2, hk⟩ := c8_disjoint_commute c8wPd c8wGeomA c8wGeomB c8wPdAB
    (by rfl) (by rfl) (by rfl) (by rfl) (by rfl) (by with_unfolding_all rfl)
  rw [show (c8wPd.add c8wGeomA).bind (fun p => p.add c8wGeomB) = .ok c8wPdAB from by
    with_unfolding_all rfl]
  rw [h2]
  show Except.ok (dictLookup c8wPdAB.plotting_data "colors") = _
  rw [hk "colors"]
  rfl

theorem lenFromGrouped {df : DataFrame} {keys : List String} {d : DataFrame}
    {nm : String} {col : Series}
    (hgb : DataFrame.groupbyAgg df keys = .ok d) (hcol : d.getCol nm = .ok col) :
    col.length = d.rowCount :=
  wfB_col_length (groupbyAgg_wf hgb) (getCol_ok_lookup hcol)

theorem initReacHalf_spec {df : DataFrame} {a : Aesthetics} {dfR : Option DataFrame}
    {p : Dict Series} (h : initReacHalf df a = .ok (dfR, p)) :
    ∀ kv ∈ p, strContains kv.1 "met" = false ∧
      Option.some kv.2.length = dfR.map DataFrame.rowCount := by
  unfold initReacHalf at h
  by_cases hr : dictMem a "reaction" = true
  · rw [if_pos hr] at h
    simp only [Bind.bind, Except.bind] at h
    cases hgr : df.groupbyAgg
        ((["reaction", "condition"].filter (fun v => dictMem a v)).map (aesGet a)) with
    | error e => rw [hgr] at h; dsimp only at h; exact Except.noConfusion h
    | ok dr =>
      rw [hgr] at h; dsimp only at h
      cases hcr : dr.getCol (aesGet a "reaction") with
      | error e => rw [hcr] at h; dsimp only at h; exact Except.noConfusion h
      | ok rcol =>
        rw [hcr] at h; dsimp only at h
        by_cases hc : dictMem a "condition" = true
        · rw [if_pos hc] at h
          cases hcc : dr.getCol (aesGet a "condition") with
          | error e => rw [hcc] at h; dsimp only at h; exact Except.noConfusion h
          | ok ccol =>
            rw [hcc] at h; dsimp only at h
            have hinj := Except.ok.inj h
            injection hinj with h1 h2
            subst h1
            subst h2
            intro kv hkv
            rcases mem_dictSet hkv with rfl | ⟨hkv2, _⟩
            · refine ⟨rfl, ?_⟩
              simp [lenFromGrouped hgr hcc]
            · rcases mem_dictSet hkv2 with rfl | ⟨hkv3, _⟩
              · refine ⟨rfl, ?_⟩
                simp [lenFromGrouped hgr hcr]
              · simp at hkv3
        · rw [if_neg hc] at h
          have hinj := Except.ok.inj h
          injection hinj with h1 h2
          subst h1
          subst h2
          intro kv hkv
          rcases mem_dictSet hkv with rfl | ⟨hkv2, _⟩
          · refine ⟨rfl, ?_⟩
            simp [lenFromGrouped hgr hcr]
          · simp at hkv2
  · rw [if_neg hr] at h
    have hinj := Except.ok.inj h
    injection hinj with h1 h2
    subst h1
    subst h2
    intro kv hkv
    simp at hkv

theorem initMetHalf_spec {df : DataFrame} {a : Aesthetics} {p1 : Dict Series}
    {dfM : Option DataFrame} {p2 : Dict Series}
    (h : initMetHalf df a p1 = .ok (dfM, p2)) :
    ∀ kv ∈ p2, kv ∈ p1 ∨ (strContains kv.1 "met" = true ∧
      Option.some kv.2.length = dfM.map DataFrame.rowCount) := by
  unfold initMetHalf at h
  by_cases hm : dictMem a "metabolite" = true
  · rw [if_pos hm] at h
    simp only [Bind.bind, Except.bind] at h
    cases hgm : df.groupbyAgg
        ((["metabolite", "condition"].filter (fun v => dictMem a v)).map (aesGet a)) with
    | error e => rw [hgm] at h; dsimp only at h; exact Except.noConfusion h
    | ok dm =>
      rw [hgm] at h; dsimp only at h
      cases hcm : dm.getCol (aesGet a "metabolite") with
      | error e => rw [hcm] at h; dsimp only at h; exact Except.noConfusion h
      | ok mcol =>
        rw [hcm] at h; dsimp only at h
        by_cases hc : dictMem a "condition" = true
        · rw [if_pos hc] at h
          cases hcc : dm.getCol (aesGet a "condition") with
          | error e => rw [hcc] at h; dsimp only at h; exact Except.noConfusion h
          | ok ccol =>
            rw [hcc] at h; dsimp only at h
            have hinj := Except.ok.inj h
            injection hinj with h1 h2
            subst h1
            subst h2
            intro kv hkv
            rcases mem_dictSet hkv with rfl | ⟨hkv2, _⟩
            · refine Or.inr ⟨rfl, ?_⟩
              simp [lenFromGrouped hgm hcc]
            · rcases mem_dictSet hkv2 with rfl | ⟨hkv3, _⟩
              · refine Or.inr ⟨rfl, ?_⟩
                simp [lenFromGrouped hgm hcm]
              · exact Or.inl hkv3
        · rw [if_neg hc] at h
          have hinj := Except.ok.inj h
          injection hinj with h1 h2
          subst h1
          subst h2
          intro kv hkv
          rcases mem_dictSet hkv with rfl | ⟨hkv2, _⟩
          · refine Or.inr ⟨rfl, ?_⟩
            simp [lenFromGrouped hgm hcm]
          · exact Or.inl hkv2
  · rw [if_neg hm] at h
    have hinj := Except.ok.inj h
    injection hinj with h1 h2
    subst h1
    subst h2
    intro kv hkv
    exact Or.inl hkv

theorem init_lengths (df : DataFrame) (a : Aesthetics) (pd : PlotData)
    (h : PlotData.init df a = .ok pd) :
    ∀ kv ∈ pd.plotting_data,
      (strContains kv.1 "met" = true →
        Option.some kv.2.length = pd.df_met.map DataFrame.rowCount)
      ∧ (strContains kv.1 "met" = false →
        Option.some kv.2.length = pd.df_reac.map DataFrame.rowCount) := by
  unfold PlotData.init at h
  simp only [Bind.bind, Except.bind] at h
  cases hR : initReacHalf df a with
  | error e => rw [hR] at h; dsimp only at h; exact Except.noConfusion h
  | ok x1 =>
    rw [hR] at h; dsimp only at h
    cases hM : initMetHalf df a x1.2 with
    | error e => rw [hM] at h; dsimp only at h; exact Except.noConfusion h
    | ok x2 =>
      rw [hM] at h; dsimp only at h
      have hpd := (Except.ok.inj h).symm
      subst hpd
      dsimp only
      intro kv hkv
      rcases x1 with ⟨dfR, p1⟩
      rcases x2 with ⟨dfM, p2⟩
      rcases initMetHalf_spec hM kv hkv with hmem | ⟨hmet, hlen⟩
      · rcases initReacHalf_spec hR kv hmem with ⟨hnomet, hlen⟩
        constructor
        · intro hcontra; rw [hnomet] at hcontra; cases hcontra
        · intro _; exact hlen
      · constructor
        · intro _; exact hlen
        · intro hcontra; rw [hmet] at hcontra; cases hcontra

theorem initReacHalf_wf {df : DataFrame} {a : Aesthetics} {dfR : Option DataFrame}
    {p : Dict Series} (h : initReacHalf df a = .ok (dfR, p)) : optWfB dfR = true := by
  unfold initReacHalf at h
  by_cases hr : dictMem a "reaction" = true
  · rw [if_pos hr] at h
    simp only [Bind.bind, Except.bind] at h
    cases hgr : df.groupbyAgg
        ((["reaction", "condition"].filter (fun v => dictMem a v)).map (aesGet a)) with
    | error e => rw [hgr] at h; dsimp only at h; exact Except.noConfusion h
    | ok dr =>
      rw [hgr] at h; dsimp only at h
      cases hcr : dr.getCol (aesGet a "reaction") with
      | error e => rw [hcr] at h; dsimp only at h; exact Except.noConfusion h
      | ok rcol =>
        rw [hcr] at h; dsimp only at h
        have hwf := groupbyAgg_wf hgr
        by_cases hc : dictMem a "condition" = true
        · rw [if_pos hc] at h
          cases hcc : dr.getCol (aesGet a "condition") with
          | error e => rw [hcc] at h; dsimp only at h; exact Except.noConfusion h
          | ok ccol =>
            rw [hcc] at h; dsimp only at h
            have hinj := Except.ok.inj h
            injection hinj with h1 h2
            subst h1
            simpa [optWfB] using hwf
        · rw [if_neg hc] at h
          have hinj := Except.ok.inj h
          injection hinj with h1 h2
          subst h1
          simpa [optWfB] using hwf
  · rw [if_neg hr] at h
    have hinj := Except.ok.inj h
    injection hinj with h1 h2
    subst h1
    rfl

theorem initMetHalf_wf {df : DataFrame} {a : Aesthetics} {p1 : Dict Series}
    {dfM : Option DataFrame} {p2 : Dict Series}
    (h : initMetHalf df a p1 = .ok (dfM, p2)) : optWfB dfM = true := by
  unfold initMetHalf at h
  by_cases hm : dictMem a "metabolite" = true
  · rw [if_pos hm] at h
    simp only [Bind.bind, Except.bind] at h
    cases hgm : df.groupbyAgg
        ((["metabolite", "condition"].filter (fun v => dictMem a v)).map (aesGet a)) with
    | error e => rw [hgm] at h; dsimp only at h; exact Except.noConfusion h
    | ok dm =>
      rw [hgm] at h; dsimp only at h
      cases hcm : dm.getCol (aesGet a "metabolite") with
      | error e => rw [hcm] at h; dsimp only at h; exact Except.noConfusion h
      | ok mcol =>
        rw [hcm] at h; dsimp only at h
        have hwf := groupbyAgg_wf hgm
        by_cases hc : dictMem a "condition" = true
        · rw [if_pos hc] at h
          cases hcc : dm.getCol (aesGet a "condition") with
          | error e => rw [hcc] at h; dsimp only at h; exact Except.noConfusion h
          | ok ccol =>
            rw [hcc] at h; dsimp only at h
            have hinj := Except.ok.inj h
            injection hinj with h1 h2
            subst h1
            simpa [optWfB] using hwf
        · rw [if_neg hc] at h
          have hinj := Except.ok.inj h
          injection hinj with h1 h2
          subst h1
          simpa [optWfB] using hwf
  · rw [if_neg hm] at h
    have hinj := Except.ok.inj h
    injection hinj with h1 h2
    subst h1
    rfl

theorem init_wf {df : DataFrame} {a : Aesthetics} {pd : PlotData}
    (h : PlotData.init df a = .ok pd) :
    optWfB pd.df_reac = true ∧ optWfB pd.df_met = true := by
  unfold PlotData.init at h
  simp only [Bind.bind, Except.bind] at h
  cases hR : initReacHalf df a with
  | error e => rw [hR] at h; dsimp only at h; exact Except.noConfusion h
  | ok x1 =>
    rw [hR] at h; dsimp only at h
    cases hM : initMetHalf df a x1.2 with
    | error e => rw [hM] at h; dsimp only at h; exact Except.noConfusion h
    | ok x2 =>
      rw [hM] at h; dsimp only at h
      have hpd := (Except.ok.inj h).symm
      subst hpd
      dsimp only
      rcases x1 with ⟨dfR, p1⟩
      rcases x2 with ⟨dfM, p2⟩
      exact ⟨initReacHalf_wf hR, initMetHalf_wf hM⟩

/-- C1 (amended).  After construction the output map satisfies the length
invariant: every met-named entry has the row count of the metabolite grouped
frame and every other entry the row count of the reaction grouped frame.  A
compose step with a geom carrying no bound frame and no bound aesthetics
leaves both grouped frames unchanged, and every entry of the resulting map is
either an entry of the previous map or a freshly resolved column whose length
is the row count of the grouped frame of the geom's scope.  (The original
claim's stronger assertion — that the invariant survives EVERY compose step —
is false: a geom with its own metabolite aesthetics writes met_conditions
from the ungrouped passed frame, see the counterexample.) -/
theorem c1_lengths (df : DataFrame) (a : Aesthetics) (pd : PlotData)
    (hinit : PlotData.init df a = .ok pd) (g : Geom)
    (hdf : g.df = Option.none) (hga : g.aes = Option.none)
    (pd' : PlotData) (hadd : PlotData.add pd g = .ok pd') :
    (∀ kv ∈ pd.plotting_data,
      (strContains kv.1 "met" = true →
        Option.some kv.2.length = pd.df_met.map DataFrame.rowCount)
      ∧ (strContains kv.1 "met" = false →
        Option.some kv.2.length = pd.df_reac.map DataFrame.rowCount))
    ∧ pd'.df_reac = pd.df_reac ∧ pd'.df_met = pd.df_met
    ∧ ∀ kv ∈ pd'.plotting_data, kv ∈ pd.plotting_data ∨
        Option.some kv.2.length =
          (if metTargeted g then pd.df_met else pd.df_reac).map DataFrame.rowCount := by
  refine ⟨init_lengths df a pd hinit, ?_⟩
  have hown : ownAesNoIdentity g = true := by
    unfold ownAesNoIdentity
    rw [hga]
  have hsimp := @add_simple pd g hdf hown
  rw [hsimp] at hadd
  cases hm : Geom.map g (if metTargeted g then pd.df_met else pd.df_reac) pd.aes with
  | error e => rw [hm] at hadd; exact Except.noConfusion hadd
  | ok res =>
    rw [hm] at hadd
    simp only [Except.bind] at hadd
    have hpd := Except.ok.inj hadd
    subst hpd
    refine ⟨rfl, rfl, ?_⟩
    intro kv hkv
    dsimp only at hkv
    rcases mem_dictUpdate hkv with hold | hres
    · exact Or.inl hold
    · rcases map_ok_entries hm with ⟨_, hvals⟩
      rcases hvals kv hres with ⟨kv0, _, _, hspec⟩
      rcases mapEntry_ok_spec hspec with ⟨_, d, col, hdfd, hlook, hlen, _⟩
      have heff : (if metTargeted g then pd.df_met else pd.df_reac) = Option.some d := by
        unfold effDf at hdfd
        rw [hdf] at hdfd
        exact hdfd
      have hwfd : d.wfB = true := by
        rcases init_wf hinit with ⟨hwr, hwm⟩
        by_cases hmt : metTargeted g = true
        · rw [if_pos hmt] at heff
          rw [heff] at hwm
          simpa [optWfB] using hwm
        · rw [if_neg hmt] at heff
          rw [heff] at hwr
          simpa [optWfB] using hwr
      right
      rw [heff]
      have hcl := wfB_col_length hwfd hlook
      simp [hlen, hcl]

/-- the original C1 is refuted at c1Chain: met_conditions (a met-family
field) has 2 entries while the metabolite grouped frame has a single row,
because __add__ takes met_conditions from the ungrouped passed frame. -/
theorem c1_counterexample :
    c1Chain = .ok c1Pd
    ∧ strContains "met_conditions" "met" = true
    ∧ (dictLookup c1Pd.plotting_data "met_conditions").map List.length = Option.some 2
    ∧ c1Pd.df_met.map DataFrame.rowCount = Option.some 1
    ∧ (2 : Nat) ≠ 1 := by
  refine ⟨by with_unfolding_all rfl, by rfl, by with_unfolding_all rfl,
    by with_unfolding_all rfl, by decide⟩

/-- c1_lengths instantiated at the concrete scenario chain. -/
theorem c1_witness :
    PlotData.init c7Df c7Aes = .ok c1wPd
    ∧ c1wGeom.df = Option.none
    ∧ c1wGeom.aes = Option.none
    ∧ PlotData.add c1wPd c1wGeom = .ok c1wPd2
    ∧ ((∀ kv ∈ c1wPd.plotting_data,
        (strContains kv.1 "met" = true →
          Option.some kv.2.length = c1wPd.df_met.map DataFrame.rowCount)
        ∧ (strContains kv.1 "met" = false →
          Option.some kv.2.length = c1wPd.df_reac.map DataFrame.rowCount))
      ∧ c1wPd2.df_reac = c1wPd.df_reac ∧ c1wPd2.df_met = c1wPd.df_met
      ∧ ∀ kv ∈ c1wPd2.plotting_data, kv ∈ c1wPd.plotting_data ∨
          Option.some kv.2.length =
            (if metTargeted c1wGeom then c1wPd.df_met else c1wPd.df_reac).map
              DataFrame.rowCount) := by
  have h1 : PlotData.init c7Df c7Aes = .ok c1wPd := by with_unfolding_all rfl
  have h2 : c1wGeom.df = Option.none := by rfl
  have h3 : c1wGeom.aes = Option.none := by rfl
  have h4 : PlotData.add c1wPd c1wGeom = .ok c1wPd2 := by with_unfolding_all rfl
  exact ⟨h1, h2, h3, h4, c1_lengths c7Df c7Aes c1wPd h1 c1wGeom h2 h3 c1wPd2 h4⟩
